import Mathlib

/-!
# HelloDevice: the device-hierarchy state machine of `hello-device.c`

A shallow embedding of the parts of `hello-device.c` that decide which
notifications are sent and what the name table holds:
`xi_process_current_devices`, `xi_get_device_name`, `xi_handle_event` and
`loop`.

* The X server is reduced to the replies of `XIQueryDevice` (`Display`).
* `run_for_device` spawns the handler; here it appends the triple it was
  called with to a log (`World.spawned`).  Calls of `XIQueryDevice` made by
  `xi_get_device_name` are logged in `World.queried`.  Inside `loop` the
  events delivered by `XNextEvent` and those passed to `xi_handle_event` are
  logged in `LoopState.fetched` and `LoopState.routed`.
* `ctx->device_names` is an array of exactly `MAX_DEVICES` slots; an access
  with an index outside it, and a dereference of a NULL reply, end the run
  with a `Fault`.
* Device ids are `Nat` (they are 16-bit unsigned on the wire); flag words
  are `Nat` with `&&&` and `|||`.
* `sleep(1)` has no effect on the state and is left out.
-/

namespace HelloDevice

/-! ## Constants -/

/-- Capacity of the name table: `#define MAX_DEVICES 40`. -/
def MAX_DEVICES : Nat := 40

/-- Modelled from the spec: the role "master pointer"; the header `XI2.h`
that defines the constant is not part of the repository, the value is the one
of the X Input 2 protocol. -/
def XIMasterPointer : Nat := 1

/-- Modelled from the spec: the role "master keyboard" (value of the X Input
2 protocol, header not in the repository). -/
def XIMasterKeyboard : Nat := 2

/-- Modelled from the spec: a physical pointer device (value of the X Input 2
protocol, header not in the repository).  Used in examples only. -/
def XISlavePointer : Nat := 3

/-- Modelled from the spec: the flag "slave removed", `1 << 3` in the X Input
2 protocol (header not in the repository). -/
def XISlaveRemoved : Nat := 8

/-- Modelled from the spec: the flag "device enabled", `1 << 6` in the X
Input 2 protocol (header not in the repository). -/
def XIDeviceEnabled : Nat := 64

/-- Modelled from the spec: the flag "device disabled", `1 << 7` in the X
Input 2 protocol (header not in the repository). -/
def XIDeviceDisabled : Nat := 128

/-- Modelled from the spec: the event type of a generic extension event
(`GenericEvent` of `X.h`, not in the repository). -/
def GenericEvent : Nat := 35

/-- Modelled from the spec: the subtype "hierarchy changed"
(`XI_HierarchyChanged` of `XI2.h`, not in the repository). -/
def XI_HierarchyChanged : Nat := 11

/-! ## Data model -/

/-- The `enum notification_type`. -/
inductive notification_type where
  | ADDED
  | REMOVED
  | PRESENT
  deriving DecidableEq, Repr

/-- The fields of `XIDeviceInfo` the program reads. -/
structure XIDeviceInfo where
  deviceid : Nat
  name : String
  use : Nat
  enabled : Bool
  deriving DecidableEq, Repr

/-- The fields of `XIHierarchyInfo` the program reads. -/
structure XIHierarchyInfo where
  deviceid : Nat
  use : Nat
  flags : Nat
  deriving DecidableEq, Repr

/-- The fields of `XIHierarchyEvent` the program reads; `num_info` is the
length of `info`. -/
structure XIHierarchyEvent where
  flags : Nat
  info : List XIHierarchyInfo
  deriving DecidableEq, Repr

/-- The X connection as the program uses it.  `devices` is the array returned
by `XIQueryDevice(dpy, XIAllDevices, &ndevices)`; `device_info id` is what
`XIQueryDevice(dpy, id, &ndevices)` points to, `none` for a NULL reply;
`xi_opcode` is the major opcode `XQueryExtension` reports. -/
structure Display where
  devices : List XIDeviceInfo
  device_info : Nat → Option XIDeviceInfo
  xi_opcode : Nat

/-- The `struct hd_context`. -/
structure hd_context where
  dpy : Display
  command : String
  device_names : Fin MAX_DEVICES → Option String

/-- One call of `run_for_device`: the arguments after `command`.  `name` is a
`char *` and may be NULL. -/
structure Notification where
  type : notification_type
  name : Option String
  id : Nat
  deriving DecidableEq, Repr

/-- How a run ends when it does not return: an index outside
`device_names`, or a dereference of NULL. -/
inductive Fault where
  | out_of_bounds
  | null_deref
  deriving DecidableEq, Repr

/-- The context together with the calls made so far: `spawned` holds the
calls of `run_for_device`, `queried` the device ids `xi_get_device_name` asked
the server about, both oldest first. -/
structure World where
  ctx : hd_context
  spawned : List Notification
  queried : List Nat

/-- The world in which `main` starts: `struct hd_context ctx = {0}`. -/
def World.start (dpy : Display) (command : String) : World :=
  { ctx := { dpy := dpy, command := command, device_names := fun _ => none },
    spawned := [], queried := [] }

/-- The assignment `ctx->device_names[i] = v`. -/
def World.set_name (w : World) (i : Fin MAX_DEVICES) (v : Option String) : World :=
  { w with ctx := { w.ctx with device_names := Function.update w.ctx.device_names i v } }

/-- The read `ctx->device_names[id]`, `none` too when `id` is outside the
array (the spec's `lookup`). -/
def World.lookup (w : World) (id : Nat) : Option String :=
  if h : id < MAX_DEVICES then w.ctx.device_names ⟨id, h⟩ else none

/-! ## Operations -/

/-- The function `run_for_device`: the handler is spawned with the given type, name and id. -/
def run_for_device (w : World) (type : notification_type) (name : Option String)
    (id : Nat) : World :=
  { w with spawned := w.spawned ++ [⟨type, name, id⟩] }

/-- The body of the `while` loop of `xi_process_current_devices` for the
entry `d`. -/
def process_device (w : World) (d : XIDeviceInfo) : Except Fault World :=
  if d.use = XIMasterPointer ∨ d.use = XIMasterKeyboard then
    .ok w
  else if d.enabled = false then
    .ok w
  else if h : d.deviceid < MAX_DEVICES then
    .ok (run_for_device (w.set_name ⟨d.deviceid, h⟩ (some d.name))
      notification_type.PRESENT (some d.name) d.deviceid)
  else
    .error Fault.out_of_bounds

/-- Runs `f` over a list from left to right, stopping at the first fault. -/
def for_each {σ α : Type} (f : σ → α → Except Fault σ) :
    σ → List α → Except Fault σ
  | w, [] => .ok w
  | w, x :: xs =>
    match f w x with
    | .ok w1 => for_each f w1 xs
    | .error e => .error e

/-- The function `xi_process_current_devices`: the loop
`while (ndevices-- > 0)` visits `info[ndevices-1]` down to `info[0]`. -/
def xi_process_current_devices (w : World) : Except Fault World :=
  for_each process_device w w.ctx.dpy.devices.reverse

/-- The function `xi_get_device_name`: `info->name` of the reply, which is
dereferenced unchecked. -/
def xi_get_device_name (w : World) (deviceid : Nat) : Except Fault (World × Option String) :=
  match w.ctx.dpy.device_info deviceid with
  | none => .error Fault.null_deref
  | some info => .ok ({ w with queried := w.queried ++ [deviceid] }, some info.name)

/-- Lines 242 to 259 of `xi_handle_event`: the name of the record's device is
taken from the table, or asked of the server and stored, and the handler is
run. -/
def report_info (w : World) (info : XIHierarchyInfo) : Except Fault World :=
  if h : info.deviceid < MAX_DEVICES then
    match w.ctx.device_names ⟨info.deviceid, h⟩ with
    | some name =>
      .ok (run_for_device w
        (if info.flags &&& XIDeviceEnabled ≠ 0 then notification_type.ADDED
          else notification_type.REMOVED)
        (some name) info.deviceid)
    | none =>
      match xi_get_device_name w info.deviceid with
      | .error e => .error e
      | .ok (w1, name) =>
        .ok (run_for_device (w1.set_name ⟨info.deviceid, h⟩ name)
          (if info.flags &&& XIDeviceEnabled ≠ 0 then notification_type.ADDED
            else notification_type.REMOVED)
          name info.deviceid)
  else
    .error Fault.out_of_bounds

/-- Lines 262 to 265 of `xi_handle_event`: a record with `XISlaveRemoved`
clears its slot. -/
def evict_info (w : World) (info : XIHierarchyInfo) : Except Fault World :=
  if info.flags &&& XISlaveRemoved ≠ 0 then
    if h : info.deviceid < MAX_DEVICES then
      .ok (w.set_name ⟨info.deviceid, h⟩ none)
    else
      .error Fault.out_of_bounds
  else
    .ok w

/-- The body of the `for` loop of `xi_handle_event` for one record; the
`continue` for a master device skips the rest of the body. -/
def handle_info (w : World) (info : XIHierarchyInfo) : Except Fault World :=
  if info.flags &&& (XIDeviceEnabled ||| XIDeviceDisabled) ≠ 0 then
    if info.use = XIMasterKeyboard ∨ info.use = XIMasterPointer then
      .ok w
    else
      match report_info w info with
      | .ok w1 => evict_info w1 info
      | .error e => .error e
  else
    evict_info w info

/-- The function `xi_handle_event`. -/
def xi_handle_event (w : World) (event : XIHierarchyEvent) : Except Fault World :=
  if event.flags &&& (XIDeviceEnabled ||| XIDeviceDisabled) = 0 then
    .ok w
  else
    for_each handle_info w event.info

/-- An `XEvent` as `loop` reads it: the cookie's `type`, `extension` and
`evtype`, and `data`, which is `none` when `XGetEventData` fails. -/
structure XEvent where
  type : Nat
  extension : Nat
  evtype : Nat
  data : Option XIHierarchyEvent
  deriving DecidableEq, Repr

/-- The world inside `loop`, with what the loop has done so far: `fetched`
holds the events `XNextEvent` delivered, `routed` the events passed to
`xi_handle_event`, both oldest first. -/
structure LoopState where
  world : World
  fetched : List XEvent
  routed : List XIHierarchyEvent

/-- The body of the inner `while (XPending(dpy))` loop of `loop`: one event is
fetched with `XNextEvent`; it is dropped unless it is a generic event of the
input extension with event data, and passed to `xi_handle_event` when its
`evtype` is `XI_HierarchyChanged`. -/
def handle_xevent (s : LoopState) (ev : XEvent) : Except Fault LoopState :=
  if ev.type ≠ GenericEvent ∨ ev.extension ≠ s.world.ctx.dpy.xi_opcode then
    .ok { s with fetched := s.fetched ++ [ev] }
  else
    match ev.data with
    | none => .ok { s with fetched := s.fetched ++ [ev] }
    | some data =>
      if ev.evtype = XI_HierarchyChanged then
        match xi_handle_event s.world data with
        | .ok w1 =>
          .ok { world := w1, fetched := s.fetched ++ [ev], routed := s.routed ++ [data] }
        | .error e => .error e
      else
        .ok { s with fetched := s.fetched ++ [ev] }

/-- The inner loop of `loop`: every pending event is fetched and handled. -/
def drain (s : LoopState) (pending : List XEvent) : Except Fault LoopState :=
  for_each handle_xevent s pending

/-- One return of `poll` with a non-zero result: `revents` is
`fds[1].revents`, the readiness of the signal descriptor, and `pending` holds
the events `XPending` and `XNextEvent` deliver before the loop polls again. -/
structure Wakeup where
  revents : Nat
  pending : List XEvent
  deriving DecidableEq, Repr

/-- The outer loop of `loop` with the static counter at `foo`; the list holds
the wake-ups still to come. -/
def loop_from : Nat → LoopState → List Wakeup → Except Fault LoopState
  | _, s, [] => .ok s
  | foo, s, wk :: rest =>
    if wk.revents ≠ 0 then
      .ok s
    else if foo > 5 then
      .ok s
    else
      match drain s wk.pending with
      | .ok s1 => loop_from (foo + 1) s1 rest
      | .error e => .error e

/-- The function `loop`: `static int foo = 0`; nothing is fetched or routed
yet. -/
def loop (w : World) (wakeups : List Wakeup) : Except Fault LoopState :=
  loop_from 0 { world := w, fetched := [], routed := [] } wakeups

/-! ## Vocabulary of the statements -/

/-- A record that carries none of the flags "device enabled", "device
disabled" and "slave removed": its device did not change. -/
def quiet (info : XIHierarchyInfo) : Prop :=
  info.flags &&& (XIDeviceEnabled ||| XIDeviceDisabled) = 0 ∧
    info.flags &&& XISlaveRemoved = 0

/-- A record of a master pointer or master keyboard. -/
def is_master (use : Nat) : Prop :=
  use = XIMasterPointer ∨ use = XIMasterKeyboard

instance (use : Nat) : Decidable (is_master use) := by
  unfold is_master
  exact inferInstance

/-- A record of a physical device whose flags contain "device enabled" or
"device disabled": the records `xi_handle_event` reports. -/
def reports (info : XIHierarchyInfo) : Bool :=
  decide (info.flags &&& (XIDeviceEnabled ||| XIDeviceDisabled) ≠ 0 ∧ ¬ is_master info.use)

/-- The transition a reported record stands for. -/
def transition_of (info : XIHierarchyInfo) : notification_type :=
  if info.flags &&& XIDeviceEnabled ≠ 0 then notification_type.ADDED
  else notification_type.REMOVED

/-- An entry of the enumeration that is enabled and is not a master device:
the entries `xi_process_current_devices` reports. -/
def present_at_startup (d : XIDeviceInfo) : Bool :=
  decide (¬ is_master d.use ∧ d.enabled = true)

/-- The notification `xi_process_current_devices` sends for an entry. -/
def present_of (d : XIDeviceInfo) : Notification :=
  ⟨notification_type.PRESENT, some d.name, d.deviceid⟩

/-- An event that enables the physical device `id`: the event and the record
of `id` carry "device enabled", the record does not carry "slave removed", and
every other record is quiet. -/
def enables (event : XIHierarchyEvent) (id : Nat) : Prop :=
  event.flags &&& XIDeviceEnabled ≠ 0 ∧
  ∃ pre r post, event.info = pre ++ r :: post ∧
    (∀ x ∈ pre, quiet x) ∧ (∀ x ∈ post, quiet x) ∧
    r.deviceid = id ∧ ¬ is_master r.use ∧
    r.flags &&& XIDeviceEnabled ≠ 0 ∧ r.flags &&& XISlaveRemoved = 0

/-- An event that disables the physical device `id`: the event and the record
of `id` carry "device disabled", the record carries neither "device enabled"
nor "slave removed", and every other record is quiet. -/
def disables (event : XIHierarchyEvent) (id : Nat) : Prop :=
  event.flags &&& XIDeviceDisabled ≠ 0 ∧
  ∃ pre r post, event.info = pre ++ r :: post ∧
    (∀ x ∈ pre, quiet x) ∧ (∀ x ∈ post, quiet x) ∧
    r.deviceid = id ∧ ¬ is_master r.use ∧
    r.flags &&& XIDeviceDisabled ≠ 0 ∧ r.flags &&& XIDeviceEnabled = 0 ∧
    r.flags &&& XISlaveRemoved = 0

/-- The records of an event all have an id inside the table that the server
can name: no access of `xi_handle_event` can fault. -/
def event_in_range (dpy : Display) (l : List XIHierarchyInfo) : Prop :=
  ∀ r ∈ l, r.deviceid < MAX_DEVICES ∧ (dpy.device_info r.deviceid).isSome = true

/-- The type and id a notification carries. -/
def Notification.key (n : Notification) : notification_type × Nat := (n.type, n.id)

/-- The name the enumeration leaves in slot `id`: that of the first entry of
the array that is reported and has this id, if there is one. -/
def startup_name (devices : List XIDeviceInfo) (id : Nat) : Option String :=
  (devices.find? (fun d => present_at_startup d && decide (d.deviceid = id))).map
    XIDeviceInfo.name

/-- The signal descriptor was not ready at any of the first `k` wake-ups. -/
def signal_free (wakeups : List Wakeup) (k : Nat) : Bool :=
  (wakeups.take k).all (fun wk => wk.revents == 0)

/-- The condition under which the `k`-th wake-up, counted from 1, is to be
drained: no signal up to and including it, and `k` at most 6. -/
def wakeup_drained (wakeups : List Wakeup) (k : Nat) : Bool :=
  signal_free wakeups k && decide (k ≤ 6)

/-- The pending events of the wake-ups that satisfy `wakeup_drained`, in
order. -/
def drained_events (wakeups : List Wakeup) : List XEvent :=
  (((wakeups.enumFrom 1).filter (fun p => wakeup_drained wakeups p.1)).map
    (fun p => p.2.pending)).flatten

/-- The hierarchy event `loop` passes to `xi_handle_event` for a fetched
event, if it passes one: the event data of a generic event of the input
extension (major opcode `opcode`) whose `evtype` is `XI_HierarchyChanged`. -/
def hierarchy_of (opcode : Nat) (ev : XEvent) : Option XIHierarchyEvent :=
  if ev.type = GenericEvent ∧ ev.extension = opcode ∧ ev.evtype = XI_HierarchyChanged then
    ev.data
  else
    none

/-- Every hierarchy event among the pending events of the wake-ups has all
its record ids inside the table and known to the server. -/
def wakeups_in_range (dpy : Display) (wakeups : List Wakeup) : Prop :=
  ∀ wk ∈ wakeups, ∀ ev ∈ wk.pending, ∀ data, ev.data = some data →
    event_in_range dpy data.info

/-! ## Example inputs -/

/-- A physical pointer, enabled, with id 5. -/
def mouse : XIDeviceInfo := ⟨5, "Mouse", XISlavePointer, true⟩

/-- A physical pointer, enabled, with id 7. -/
def tablet : XIDeviceInfo := ⟨7, "Tablet", XISlavePointer, true⟩

/-- The master pointer of a server, id 2. -/
def core_pointer : XIDeviceInfo := ⟨2, "Virtual core pointer", XIMasterPointer, true⟩

/-- A server with a master pointer, a mouse and a tablet; it has no device
with another id. -/
def demo_display : Display :=
  { devices := [core_pointer, mouse, tablet],
    device_info := fun id =>
      if id = 2 then some core_pointer
      else if id = 5 then some mouse
      else if id = 7 then some tablet
      else none,
    xi_opcode := 131 }

/-- The state of `main` before the enumeration, on `demo_display`. -/
def demo_start : World := World.start demo_display "hello"

/-- An event that enables device `id`, with the one record of that device. -/
def enable_event (id : Nat) : XIHierarchyEvent :=
  ⟨XIDeviceEnabled, [⟨id, XISlavePointer, XIDeviceEnabled⟩]⟩

/-- An event that disables device `id`, with the one record of that device. -/
def disable_event (id : Nat) : XIHierarchyEvent :=
  ⟨XIDeviceDisabled, [⟨id, XISlavePointer, XIDeviceDisabled⟩]⟩

/-- The `XEvent` in which `demo_display` delivers a hierarchy event. -/
def hierarchy_xevent (event : XIHierarchyEvent) : XEvent :=
  ⟨GenericEvent, demo_display.xi_opcode, XI_HierarchyChanged, some event⟩

/-- A key press, type 2 of the core protocol: not a generic event. -/
def key_press : XEvent := ⟨2, 0, 0, none⟩

/-- Eight wake-ups without a signal; the second also delivers a key press and
the fourth nothing. -/
def demo_wakeups : List Wakeup :=
  [⟨0, [hierarchy_xevent (enable_event 5)]⟩,
   ⟨0, [key_press, hierarchy_xevent (disable_event 5)]⟩,
   ⟨0, [hierarchy_xevent (enable_event 7)]⟩,
   ⟨0, []⟩,
   ⟨0, [hierarchy_xevent (disable_event 7)]⟩,
   ⟨0, [hierarchy_xevent (enable_event 5)]⟩,
   ⟨0, [hierarchy_xevent (disable_event 5)]⟩,
   ⟨0, [hierarchy_xevent (enable_event 7)]⟩]

/-- Three wake-ups, the signal descriptor ready at the second. -/
def demo_signalled : List Wakeup :=
  [⟨0, [hierarchy_xevent (enable_event 5)]⟩,
   ⟨1, [hierarchy_xevent (disable_event 5)]⟩,
   ⟨0, [hierarchy_xevent (enable_event 7)]⟩]

/-- Two wake-ups without a signal; the first delivers the disable event of a
device the server does not know. -/
def demo_faulting : List Wakeup :=
  [⟨0, [hierarchy_xevent (disable_event 9)]⟩,
   ⟨0, [hierarchy_xevent (enable_event 5)]⟩]

/-! ## Lemmas on flag words -/

theorem lor_eq_zero_iff (p q : Nat) : p ||| q = 0 ↔ p = 0 ∧ q = 0 := by
  constructor
  · intro h
    constructor
    · apply Nat.eq_of_testBit_eq
      intro i
      have := congrArg (fun n => Nat.testBit n i) h
      simp [Nat.testBit_or] at this
      simp [this.1]
    · apply Nat.eq_of_testBit_eq
      intro i
      have := congrArg (fun n => Nat.testBit n i) h
      simp [Nat.testBit_or] at this
      simp [this.2]
  · rintro ⟨rfl, rfl⟩
    rfl

theorem land_lor_eq_zero_iff (x a b : Nat) :
    x &&& (a ||| b) = 0 ↔ x &&& a = 0 ∧ x &&& b = 0 := by
  rw [Nat.and_or_distrib_left, lor_eq_zero_iff]

theorem land_lor_ne_zero_left {x a : Nat} (b : Nat) (h : x &&& a ≠ 0) :
    x &&& (a ||| b) ≠ 0 :=
  fun h0 => h ((land_lor_eq_zero_iff x a b).1 h0).1

theorem land_lor_ne_zero_right {x b : Nat} (a : Nat) (h : x &&& b ≠ 0) :
    x &&& (a ||| b) ≠ 0 :=
  fun h0 => h ((land_lor_eq_zero_iff x a b).1 h0).2

/-! ## Lemmas on the loops -/

theorem for_each_append {σ α : Type} (f : σ → α → Except Fault σ) (xs ys : List α)
    (w : σ) :
    for_each f w (xs ++ ys) =
      match for_each f w xs with
      | .ok w1 => for_each f w1 ys
      | .error e => .error e := by
  induction xs generalizing w with
  | nil => rfl
  | cons x xs ih =>
    simp only [List.cons_append, for_each]
    cases f w x with
    | error e => rfl
    | ok w1 => exact ih w1

theorem for_each_split {σ α : Type} {f : σ → α → Except Fault σ} {xs ys : List α}
    {w w2 : σ} (h : for_each f w (xs ++ ys) = .ok w2) :
    ∃ w1, for_each f w xs = .ok w1 ∧ for_each f w1 ys = .ok w2 := by
  rw [for_each_append] at h
  cases h1 : for_each f w xs with
  | error e => rw [h1] at h; cases h
  | ok w1 => rw [h1] at h; exact ⟨w1, rfl, h⟩

theorem for_each_cons_ok {σ α : Type} {f : σ → α → Except Fault σ} {x : α}
    {xs : List α} {w w2 : σ} (h : for_each f w (x :: xs) = .ok w2) :
    ∃ w1, f w x = .ok w1 ∧ for_each f w1 xs = .ok w2 := by
  simp only [for_each] at h
  cases h1 : f w x with
  | error e => rw [h1] at h; cases h
  | ok w1 => rw [h1] at h; exact ⟨w1, rfl, h⟩

theorem handle_info_quiet (w : World) (info : XIHierarchyInfo) (h : quiet info) :
    handle_info w info = .ok w := by
  simp [handle_info, evict_info, h.1, h.2]

theorem for_each_quiet (w : World) (l : List XIHierarchyInfo) (h : ∀ r ∈ l, quiet r) :
    for_each handle_info w l = .ok w := by
  induction l with
  | nil => rfl
  | cons r l ih =>
    simp only [for_each, handle_info_quiet w r (h r (List.mem_cons_self r l))]
    exact ih (fun r hr => h r (List.mem_cons_of_mem _ hr))

/-- Around a record `r` whose neighbours are all quiet, the loop of
`xi_handle_event` is the body for `r`. -/
theorem for_each_single (w : World) (pre post : List XIHierarchyInfo) (r : XIHierarchyInfo)
    (hpre : ∀ x ∈ pre, quiet x) (hpost : ∀ x ∈ post, quiet x) :
    for_each handle_info w (pre ++ r :: post) = handle_info w r := by
  rw [for_each_append, for_each_quiet w pre hpre]
  simp only [for_each]
  cases handle_info w r with
  | error e => rfl
  | ok w1 => exact for_each_quiet w1 post hpost

/-! ## Lemmas on the name table -/

theorem lookup_of_lt (w : World) {id : Nat} (h : id < MAX_DEVICES) :
    w.lookup id = w.ctx.device_names ⟨id, h⟩ := by
  simp [World.lookup, h]

theorem lookup_set_name_same (w : World) (i : Fin MAX_DEVICES) (v : Option String) :
    (w.set_name i v).lookup i.val = v := by
  simp [World.lookup, World.set_name]

theorem lookup_set_name_ne (w : World) (i : Fin MAX_DEVICES) (v : Option String) {id : Nat}
    (h : id ≠ i.val) : (w.set_name i v).lookup id = w.lookup id := by
  unfold World.lookup World.set_name
  by_cases hid : id < MAX_DEVICES
  · have hne : (⟨id, hid⟩ : Fin MAX_DEVICES) ≠ i := fun e => h (congrArg Fin.val e)
    simp [hid, Function.update_noteq hne]
  · simp [hid]

theorem lookup_run_for_device (w : World) (t : notification_type) (n : Option String)
    (i id : Nat) : (run_for_device w t n i).lookup id = w.lookup id := rfl

/-! ## One record of a hierarchy event -/

theorem report_info_cached (w : World) (info : XIHierarchyInfo) (name : String)
    (h : info.deviceid < MAX_DEVICES)
    (hs : w.ctx.device_names ⟨info.deviceid, h⟩ = some name) :
    report_info w info =
      .ok (run_for_device w (transition_of info) (some name) info.deviceid) := by
  simp [report_info, h, hs, transition_of]

theorem report_info_fresh (w : World) (info : XIHierarchyInfo) (d : XIDeviceInfo)
    (h : info.deviceid < MAX_DEVICES)
    (hs : w.ctx.device_names ⟨info.deviceid, h⟩ = none)
    (hq : w.ctx.dpy.device_info info.deviceid = some d) :
    report_info w info =
      .ok (run_for_device
        (World.set_name { w with queried := w.queried ++ [info.deviceid] }
          ⟨info.deviceid, h⟩ (some d.name))
        (transition_of info) (some d.name) info.deviceid) := by
  simp [report_info, h, hs, hq, xi_get_device_name, transition_of]

theorem report_info_null (w : World) (info : XIHierarchyInfo)
    (h : info.deviceid < MAX_DEVICES)
    (hs : w.ctx.device_names ⟨info.deviceid, h⟩ = none)
    (hq : w.ctx.dpy.device_info info.deviceid = none) :
    report_info w info = .error Fault.null_deref := by
  simp [report_info, h, hs, hq, xi_get_device_name]

theorem handle_info_of_reports (w : World) (info : XIHierarchyInfo)
    (h : reports info = true) :
    handle_info w info =
      match report_info w info with
      | .ok w1 => evict_info w1 info
      | .error e => .error e := by
  simp only [reports, decide_eq_true_eq, is_master] at h
  have hm : ¬ (info.use = XIMasterKeyboard ∨ info.use = XIMasterPointer) :=
    fun hm => h.2 (Or.symm hm)
  simp [handle_info, h.1, hm]

theorem evict_info_of_not_removed (w : World) (info : XIHierarchyInfo)
    (h : info.flags &&& XISlaveRemoved = 0) : evict_info w info = .ok w := by
  simp [evict_info, h]

theorem evict_info_of_removed (w : World) (info : XIHierarchyInfo)
    (h : info.flags &&& XISlaveRemoved ≠ 0) (hid : info.deviceid < MAX_DEVICES) :
    evict_info w info = .ok (w.set_name ⟨info.deviceid, hid⟩ none) := by
  simp [evict_info, h, hid]

theorem xi_handle_event_of_flags (w : World) (event : XIHierarchyEvent)
    (h : event.flags &&& (XIDeviceEnabled ||| XIDeviceDisabled) ≠ 0) :
    xi_handle_event w event = for_each handle_info w event.info := by
  simp [xi_handle_event, h]

theorem enables_enable_event (id : Nat) : enables (enable_event id) id := by
  refine ⟨?_, [], ⟨id, XISlavePointer, XIDeviceEnabled⟩, [], rfl, ?_, ?_, rfl, ?_, ?_, ?_⟩
  · show XIDeviceEnabled &&& XIDeviceEnabled ≠ 0
    decide
  · intro x hx; cases hx
  · intro x hx; cases hx
  · simp [is_master, XISlavePointer, XIMasterPointer, XIMasterKeyboard]
  · show XIDeviceEnabled &&& XIDeviceEnabled ≠ 0
    decide
  · show XIDeviceEnabled &&& XISlaveRemoved = 0
    decide

theorem disables_disable_event (id : Nat) : disables (disable_event id) id := by
  refine ⟨?_, [], ⟨id, XISlavePointer, XIDeviceDisabled⟩, [], rfl, ?_, ?_, rfl, ?_, ?_, ?_, ?_⟩
  · show XIDeviceDisabled &&& XIDeviceDisabled ≠ 0
    decide
  · intro x hx; cases hx
  · intro x hx; cases hx
  · simp [is_master, XISlavePointer, XIMasterPointer, XIMasterKeyboard]
  · show XIDeviceDisabled &&& XIDeviceDisabled ≠ 0
    decide
  · show XIDeviceDisabled &&& XIDeviceEnabled = 0
    decide
  · show XIDeviceDisabled &&& XISlaveRemoved = 0
    decide

/-- An enable event for a device that is not in the table and that the server
names: the name is asked for, stored and reported as added. -/
theorem xi_handle_event_enables_fresh (w : World) (e : XIHierarchyEvent) (id : Nat)
    (d : XIDeviceInfo) (hid : id < MAX_DEVICES)
    (hslot : w.ctx.device_names ⟨id, hid⟩ = none)
    (hq : w.ctx.dpy.device_info id = some d) (h : enables e id) :
    xi_handle_event w e =
      .ok (run_for_device
        (World.set_name { w with queried := w.queried ++ [id] } ⟨id, hid⟩ (some d.name))
        notification_type.ADDED (some d.name) id) := by
  obtain ⟨hf, pre, r, post, hi, hpre, hpost, hr, hm, hE, hS⟩ := h
  subst hr
  have hrep : reports r = true := by
    simp only [reports, decide_eq_true_eq]
    exact ⟨land_lor_ne_zero_left _ hE, hm⟩
  have ht : transition_of r = notification_type.ADDED := by simp [transition_of, hE]
  rw [xi_handle_event_of_flags w e (land_lor_ne_zero_left _ hf), hi,
    for_each_single w pre post r hpre hpost, handle_info_of_reports w r hrep,
    report_info_fresh w r d hid hslot hq]
  simp only []
  rw [evict_info_of_not_removed _ r hS, ht]

/-- A disable event for a device whose name is in the table: the name is
reported as removed and nothing else changes. -/
theorem xi_handle_event_disables_cached (w : World) (e : XIHierarchyEvent) (id : Nat)
    (name : String) (hid : id < MAX_DEVICES)
    (hslot : w.ctx.device_names ⟨id, hid⟩ = some name) (h : disables e id) :
    xi_handle_event w e =
      .ok (run_for_device w notification_type.REMOVED (some name) id) := by
  obtain ⟨hf, pre, r, post, hi, hpre, hpost, hr, hm, hD, hE, hS⟩ := h
  subst hr
  have hrep : reports r = true := by
    simp only [reports, decide_eq_true_eq]
    exact ⟨land_lor_ne_zero_right _ hD, hm⟩
  have ht : transition_of r = notification_type.REMOVED := by simp [transition_of, hE]
  rw [xi_handle_event_of_flags w e (land_lor_ne_zero_right _ hf), hi,
    for_each_single w pre post r hpre hpost, handle_info_of_reports w r hrep,
    report_info_cached w r name hid hslot]
  simp only []
  rw [evict_info_of_not_removed _ r hS, ht]

/-! ## What one record does -/

theorem handle_info_of_not_reports (w : World) (info : XIHierarchyInfo)
    (h : reports info = false) :
    handle_info w info =
      if info.flags &&& (XIDeviceEnabled ||| XIDeviceDisabled) ≠ 0 then .ok w
      else evict_info w info := by
  simp only [reports, decide_eq_false_iff_not, not_and, not_not, is_master] at h
  by_cases hf : info.flags &&& (XIDeviceEnabled ||| XIDeviceDisabled) ≠ 0
  · have hm : info.use = XIMasterKeyboard ∨ info.use = XIMasterPointer := Or.symm (h hf)
    simp [handle_info, hf, hm]
  · simp [handle_info, hf]

/-- A completed `report_info`: the slot index is in range, and the name sent
is the cached one, or the one the server gave, which is then in the slot. -/
theorem report_info_ok {w w2 : World} {info : XIHierarchyInfo}
    (h : report_info w info = .ok w2) :
    ∃ hid : info.deviceid < MAX_DEVICES,
      (∃ name, w.ctx.device_names ⟨info.deviceid, hid⟩ = some name ∧
        w2 = run_for_device w (transition_of info) (some name) info.deviceid) ∨
      (w.ctx.device_names ⟨info.deviceid, hid⟩ = none ∧
        ∃ d, w.ctx.dpy.device_info info.deviceid = some d ∧
          w2 = run_for_device
            (World.set_name { w with queried := w.queried ++ [info.deviceid] }
              ⟨info.deviceid, hid⟩ (some d.name))
            (transition_of info) (some d.name) info.deviceid) := by
  by_cases hid : info.deviceid < MAX_DEVICES
  · refine ⟨hid, ?_⟩
    cases hs : w.ctx.device_names ⟨info.deviceid, hid⟩ with
    | some name =>
      left
      rw [report_info_cached w info name hid hs] at h
      exact ⟨name, rfl, (Except.ok.inj h).symm⟩
    | none =>
      right
      refine ⟨rfl, ?_⟩
      cases hq : w.ctx.dpy.device_info info.deviceid with
      | none =>
        rw [report_info_null w info hid hs hq] at h
        cases h
      | some d =>
        rw [report_info_fresh w info d hid hs hq] at h
        exact ⟨d, rfl, (Except.ok.inj h).symm⟩
  · simp [report_info, hid] at h

/-- A completed `evict_info`: nothing changes, or the record carries "slave
removed", its id is in range and its slot is cleared. -/
theorem evict_info_ok {w w2 : World} {info : XIHierarchyInfo}
    (h : evict_info w info = .ok w2) :
    (info.flags &&& XISlaveRemoved = 0 ∧ w2 = w) ∨
    (info.flags &&& XISlaveRemoved ≠ 0 ∧
      ∃ hid : info.deviceid < MAX_DEVICES, w2 = w.set_name ⟨info.deviceid, hid⟩ none) := by
  by_cases hf : info.flags &&& XISlaveRemoved = 0
  · left
    rw [evict_info_of_not_removed w info hf] at h
    exact ⟨hf, (Except.ok.inj h).symm⟩
  · right
    refine ⟨hf, ?_⟩
    by_cases hid : info.deviceid < MAX_DEVICES
    · rw [evict_info_of_removed w info hf hid] at h
      exact ⟨hid, (Except.ok.inj h).symm⟩
    · simp [evict_info, hf, hid] at h

/-- A completed body for a reported record goes through `report_info` and
`evict_info`. -/
theorem handle_info_reports_ok {w w2 : World} {info : XIHierarchyInfo}
    (hr : reports info = true) (h : handle_info w info = .ok w2) :
    ∃ w1, report_info w info = .ok w1 ∧ evict_info w1 info = .ok w2 := by
  rw [handle_info_of_reports w info hr] at h
  cases h1 : report_info w info with
  | error e => rw [h1] at h; cases h
  | ok w1 => rw [h1] at h; exact ⟨w1, rfl, h⟩

theorem evict_info_frame {w w2 : World} {info : XIHierarchyInfo}
    (h : evict_info w info = .ok w2) :
    w2.spawned = w.spawned ∧ w2.queried = w.queried ∧ w2.ctx.dpy = w.ctx.dpy ∧
    ∀ i, w2.ctx.device_names i = w.ctx.device_names i ∨ w2.ctx.device_names i = none := by
  rcases evict_info_ok h with ⟨_, rfl⟩ | ⟨_, hid, rfl⟩
  · exact ⟨rfl, rfl, rfl, fun i => Or.inl rfl⟩
  · refine ⟨rfl, rfl, rfl, fun i => ?_⟩
    by_cases hi : i = ⟨info.deviceid, hid⟩
    · right; simp [World.set_name, hi]
    · left; simp [World.set_name, Function.update_noteq hi]

/-- A record that is not reported sends nothing, asks nothing and stores no
name: every slot keeps its content or is cleared. -/
theorem handle_info_not_reports_frame {w w2 : World} {info : XIHierarchyInfo}
    (hr : reports info = false) (h : handle_info w info = .ok w2) :
    w2.spawned = w.spawned ∧ w2.queried = w.queried ∧ w2.ctx.dpy = w.ctx.dpy ∧
    ∀ i, w2.ctx.device_names i = w.ctx.device_names i ∨ w2.ctx.device_names i = none := by
  rw [handle_info_of_not_reports w info hr] at h
  by_cases hf : info.flags &&& (XIDeviceEnabled ||| XIDeviceDisabled) ≠ 0
  · rw [if_pos hf] at h
    cases h
    exact ⟨rfl, rfl, rfl, fun i => Or.inl rfl⟩
  · rw [if_neg hf] at h
    exact evict_info_frame h

theorem report_info_frame {w w2 : World} {info : XIHierarchyInfo}
    (h : report_info w info = .ok w2) :
    w2.ctx.dpy = w.ctx.dpy ∧
    ∃ name, w2.spawned = w.spawned ++ [⟨transition_of info, some name, info.deviceid⟩] ∧
      w2.lookup info.deviceid = some name ∧
      ∀ id, id ≠ info.deviceid → w2.lookup id = w.lookup id := by
  obtain ⟨hid, ⟨name, hs, rfl⟩ | ⟨hs, d, hq, rfl⟩⟩ := report_info_ok h
  · refine ⟨rfl, name, rfl, ?_, fun id _ => rfl⟩
    rw [lookup_run_for_device, lookup_of_lt w hid, hs]
  · refine ⟨rfl, d.name, rfl, ?_, fun id hne => ?_⟩
    · rw [lookup_run_for_device]
      exact lookup_set_name_same _ ⟨info.deviceid, hid⟩ _
    · rw [lookup_run_for_device, lookup_set_name_ne _ ⟨info.deviceid, hid⟩ _ hne]
      rfl

theorem handle_info_dpy {w w2 : World} {info : XIHierarchyInfo}
    (h : handle_info w info = .ok w2) : w2.ctx.dpy = w.ctx.dpy := by
  cases hr : reports info with
  | false => exact (handle_info_not_reports_frame hr h).2.2.1
  | true =>
    obtain ⟨w1, h1, h2⟩ := handle_info_reports_ok hr h
    rw [(evict_info_frame h2).2.2.1, (report_info_frame h1).1]

theorem for_each_handle_info_dpy {w w2 : World} {l : List XIHierarchyInfo}
    (h : for_each handle_info w l = .ok w2) : w2.ctx.dpy = w.ctx.dpy := by
  induction l generalizing w with
  | nil => cases h; rfl
  | cons r l ih =>
    obtain ⟨w1, h1, h2⟩ := for_each_cons_ok h
    rw [ih h2, handle_info_dpy h1]

/-! ## What a whole event does -/

theorem handle_info_total (w : World) (r : XIHierarchyInfo)
    (hid : r.deviceid < MAX_DEVICES) (hq : (w.ctx.dpy.device_info r.deviceid).isSome = true) :
    ∃ w2, handle_info w r = .ok w2 := by
  have hev : ∀ w1 : World, ∃ w2, evict_info w1 r = .ok w2 := by
    intro w1
    by_cases hf : r.flags &&& XISlaveRemoved = 0
    · exact ⟨_, evict_info_of_not_removed w1 r hf⟩
    · exact ⟨_, evict_info_of_removed w1 r hf hid⟩
  cases hr : reports r with
  | false =>
    rw [handle_info_of_not_reports w r hr]
    by_cases hf : r.flags &&& (XIDeviceEnabled ||| XIDeviceDisabled) ≠ 0
    · exact ⟨w, by rw [if_pos hf]⟩
    · rw [if_neg hf]; exact hev w
  | true =>
    rw [handle_info_of_reports w r hr]
    cases hs : w.ctx.device_names ⟨r.deviceid, hid⟩ with
    | some name =>
      rw [report_info_cached w r name hid hs]
      exact hev _
    | none =>
      obtain ⟨d, hd⟩ := Option.isSome_iff_exists.1 hq
      rw [report_info_fresh w r d hid hs hd]
      exact hev _

theorem for_each_handle_info_total (w : World) (l : List XIHierarchyInfo)
    (h : event_in_range w.ctx.dpy l) : ∃ w2, for_each handle_info w l = .ok w2 := by
  induction l generalizing w with
  | nil => exact ⟨w, rfl⟩
  | cons r l ih =>
    obtain ⟨w1, h1⟩ := handle_info_total w r (h r (List.mem_cons_self r l)).1
      (h r (List.mem_cons_self r l)).2
    have hd : w1.ctx.dpy = w.ctx.dpy := handle_info_dpy h1
    obtain ⟨w2, h2⟩ := ih w1 (by
      rw [hd]; exact fun x hx => h x (List.mem_cons_of_mem _ hx))
    exact ⟨w2, by simp only [for_each, h1, h2]⟩

theorem handle_info_spawned {w w2 : World} {r : XIHierarchyInfo}
    (h : handle_info w r = .ok w2) :
    ∃ out, w2.spawned = w.spawned ++ out ∧
      out.map Notification.key =
        ([r].filter reports).map (fun x => (transition_of x, x.deviceid)) := by
  cases hr : reports r with
  | false =>
    refine ⟨[], ?_, ?_⟩
    · simp [(handle_info_not_reports_frame hr h).1]
    · simp [hr]
  | true =>
    obtain ⟨w1, h1, h2⟩ := handle_info_reports_ok hr h
    obtain ⟨_, name, hsp, _⟩ := report_info_frame h1
    refine ⟨[⟨transition_of r, some name, r.deviceid⟩], ?_, ?_⟩
    · rw [(evict_info_frame h2).1, hsp]
    · simp [hr, Notification.key]

theorem for_each_handle_info_spawned {w w2 : World} {l : List XIHierarchyInfo}
    (h : for_each handle_info w l = .ok w2) :
    ∃ out, w2.spawned = w.spawned ++ out ∧
      out.map Notification.key =
        (l.filter reports).map (fun x => (transition_of x, x.deviceid)) := by
  induction l generalizing w with
  | nil => cases h; exact ⟨[], by simp, by simp⟩
  | cons r l ih =>
    obtain ⟨w1, h1, h2⟩ := for_each_cons_ok h
    obtain ⟨o1, hs1, hk1⟩ := handle_info_spawned h1
    obtain ⟨o2, hs2, hk2⟩ := ih h2
    refine ⟨o1 ++ o2, ?_, ?_⟩
    · rw [hs2, hs1, List.append_assoc]
    · rw [List.map_append, hk1, hk2, ← List.map_append, ← List.filter_append]
      rfl

theorem lookup_frame {w w2 : World}
    (h : ∀ i, w2.ctx.device_names i = w.ctx.device_names i ∨ w2.ctx.device_names i = none)
    (id : Nat) : w2.lookup id = w.lookup id ∨ w2.lookup id = none := by
  unfold World.lookup
  by_cases hid : id < MAX_DEVICES
  · simp only [hid, dite_true]
    exact h ⟨id, hid⟩
  · simp [hid]

/-- One record leaves an empty slot empty unless it is a reported record of
that very id. -/
theorem handle_info_keeps_empty {w w2 : World} {r : XIHierarchyInfo} {id : Nat}
    (h : handle_info w r = .ok w2) (hn : w.lookup id = none)
    (hr : r.deviceid = id → reports r = false) : w2.lookup id = none := by
  cases hrep : reports r with
  | false =>
    rcases lookup_frame (handle_info_not_reports_frame hrep h).2.2.2 id with e | e
    · rw [e, hn]
    · exact e
  | true =>
    have hne : id ≠ r.deviceid := fun e => by
      have := hr e.symm
      rw [hrep] at this
      cases this
    obtain ⟨w1, h1, h2⟩ := handle_info_reports_ok hrep h
    obtain ⟨_, name, _, _, hother⟩ := report_info_frame h1
    rcases lookup_frame (evict_info_frame h2).2.2.2 id with e | e
    · rw [e, hother id hne, hn]
    · exact e

theorem for_each_handle_info_keeps_empty {w w2 : World} {l : List XIHierarchyInfo} {id : Nat}
    (h : for_each handle_info w l = .ok w2) (hn : w.lookup id = none)
    (hr : ∀ x ∈ l, x.deviceid = id → reports x = false) : w2.lookup id = none := by
  induction l generalizing w with
  | nil => cases h; exact hn
  | cons r l ih =>
    obtain ⟨w1, h1, h2⟩ := for_each_cons_ok h
    exact ih h2 (handle_info_keeps_empty h1 hn (hr r (List.mem_cons_self r l)))
      (fun x hx => hr x (List.mem_cons_of_mem _ hx))

/-- A name found in a slot after one record was there before, or the record
is a reported one of that id. -/
theorem handle_info_name_origin {w w2 : World} {r : XIHierarchyInfo} {id : Nat} {name : String}
    (h : handle_info w r = .ok w2) (hn : w2.lookup id = some name) :
    w.lookup id = some name ∨ (reports r = true ∧ r.deviceid = id) := by
  by_cases hr : r.deviceid = id → reports r = false
  · left
    cases hw : w.lookup id with
    | none =>
      rw [handle_info_keeps_empty h hw hr] at hn
      cases hn
    | some nm =>
      cases hrep : reports r with
      | false =>
        rcases lookup_frame (handle_info_not_reports_frame hrep h).2.2.2 id with e | e
        · rw [← hw, ← e, hn]
        · rw [e] at hn; cases hn
      | true =>
        have hne : id ≠ r.deviceid := fun e => by
          have := hr e.symm
          rw [hrep] at this
          cases this
        obtain ⟨w1, h1, h2⟩ := handle_info_reports_ok hrep h
        obtain ⟨_, _, _, _, hother⟩ := report_info_frame h1
        rcases lookup_frame (evict_info_frame h2).2.2.2 id with e | e
        · rw [← hw, ← hother id hne, ← e, hn]
        · rw [e] at hn; cases hn
  · right
    push_neg at hr
    exact ⟨by simpa using hr.2, hr.1⟩

theorem for_each_handle_info_name_origin {w w2 : World} {l : List XIHierarchyInfo} {id : Nat}
    {name : String} (h : for_each handle_info w l = .ok w2) (hn : w2.lookup id = some name) :
    w.lookup id = some name ∨ ∃ r ∈ l, reports r = true ∧ r.deviceid = id := by
  induction l generalizing w with
  | nil => cases h; exact Or.inl hn
  | cons r l ih =>
    obtain ⟨w1, h1, h2⟩ := for_each_cons_ok h
    rcases ih h2 with e | ⟨x, hx, hxr, hxi⟩
    · rcases handle_info_name_origin h1 e with e0 | ⟨hrr, hri⟩
      · exact Or.inl e0
      · exact Or.inr ⟨r, List.mem_cons_self r l, hrr, hri⟩
    · exact Or.inr ⟨x, List.mem_cons_of_mem _ hx, hxr, hxi⟩

theorem process_device_skip (w : World) (d : XIDeviceInfo)
    (h : present_at_startup d = false) : process_device w d = .ok w := by
  simp only [present_at_startup, decide_eq_false_iff_not, not_and, is_master] at h
  by_cases hm : d.use = XIMasterPointer ∨ d.use = XIMasterKeyboard
  · simp [process_device, hm]
  · have he : d.enabled = false := by
      cases hen : d.enabled with
      | false => rfl
      | true => exact absurd hen (h hm)
    simp [process_device, hm, he]

theorem process_device_present (w : World) (d : XIDeviceInfo)
    (h : present_at_startup d = true) (hid : d.deviceid < MAX_DEVICES) :
    process_device w d =
      .ok (run_for_device (w.set_name ⟨d.deviceid, hid⟩ (some d.name))
        notification_type.PRESENT (some d.name) d.deviceid) := by
  simp only [present_at_startup, decide_eq_true_eq, is_master] at h
  simp [process_device, h.1, h.2, hid]

theorem process_device_fault (w : World) (d : XIDeviceInfo)
    (h : present_at_startup d = true) (hid : ¬ d.deviceid < MAX_DEVICES) :
    process_device w d = .error Fault.out_of_bounds := by
  simp only [present_at_startup, decide_eq_true_eq, is_master] at h
  simp [process_device, h.1, h.2, hid]

theorem for_each_process_device_total (w : World) (l : List XIDeviceInfo)
    (h : ∀ d ∈ l, present_at_startup d = true → d.deviceid < MAX_DEVICES) :
    ∃ w2, for_each process_device w l = .ok w2 := by
  induction l generalizing w with
  | nil => exact ⟨w, rfl⟩
  | cons d l ih =>
    have hw1 : ∃ w1, process_device w d = .ok w1 := by
      cases hp : present_at_startup d with
      | false => exact ⟨w, process_device_skip w d hp⟩
      | true =>
        exact ⟨_, process_device_present w d hp (h d (List.mem_cons_self d l) hp)⟩
    obtain ⟨w1, h1⟩ := hw1
    obtain ⟨w2, h2⟩ := ih w1 (fun x hx => h x (List.mem_cons_of_mem _ hx))
    exact ⟨w2, by simp only [for_each, h1, h2]⟩

theorem startup_name_cons (d : XIDeviceInfo) (l : List XIDeviceInfo) (id : Nat) :
    startup_name (d :: l) id =
      if present_at_startup d = true ∧ d.deviceid = id then some d.name
      else startup_name l id := by
  unfold startup_name
  rw [List.find?_cons]
  by_cases h : present_at_startup d = true ∧ d.deviceid = id
  · simp [h.1, h.2]
  · rw [if_neg h]
    have : (present_at_startup d && decide (d.deviceid = id)) = false := by
      simpa using h
    rw [this]

/-- The whole effect of a completed enumeration: the notifications are those
of the reported entries, last entry first; nothing is asked of the server; the
reported ids are in range; and a slot holds the name of the first reported
entry with its id, or what it held before if there is none. -/
theorem for_each_process_device_ok {w w2 : World} {devices : List XIDeviceInfo}
    (h : for_each process_device w devices.reverse = .ok w2) :
    w2.spawned = w.spawned ++ ((devices.filter present_at_startup).map present_of).reverse ∧
    w2.queried = w.queried ∧ w2.ctx.dpy = w.ctx.dpy ∧
    (∀ d ∈ devices, present_at_startup d = true → d.deviceid < MAX_DEVICES) ∧
    ∀ id, w2.lookup id =
      match startup_name devices id with
      | some name => some name
      | none => w.lookup id := by
  induction devices generalizing w2 with
  | nil =>
    cases h
    exact ⟨by simp, rfl, rfl, by simp, fun id => rfl⟩
  | cons d l ih =>
    rw [List.reverse_cons] at h
    obtain ⟨w1, h1, hlast⟩ := for_each_split h
    obtain ⟨wd, hd, hnil⟩ := for_each_cons_ok hlast
    cases hnil
    obtain ⟨hsp, hqu, hdpy, hrange, hlook⟩ := ih h1
    cases hp : present_at_startup d with
    | false =>
      rw [process_device_skip w1 d hp] at hd
      cases hd
      refine ⟨?_, hqu, hdpy, ?_, ?_⟩
      · rw [hsp, List.filter_cons_of_neg (by simp [hp])]
      · intro x hx hpx
        rcases List.mem_cons.1 hx with rfl | hx
        · rw [hp] at hpx; cases hpx
        · exact hrange x hx hpx
      · intro id
        rw [hlook id, startup_name_cons, if_neg (by simp [hp])]
    | true =>
      by_cases hid : d.deviceid < MAX_DEVICES
      · rw [process_device_present w1 d hp hid] at hd
        cases hd
        refine ⟨?_, hqu, hdpy, ?_, ?_⟩
        · simp [run_for_device, World.set_name, hsp, List.filter_cons_of_pos, hp, present_of]
        · intro x hx hpx
          rcases List.mem_cons.1 hx with rfl | hx
          · exact hid
          · exact hrange x hx hpx
        · intro id
          rw [lookup_run_for_device, startup_name_cons]
          by_cases hi : d.deviceid = id
          · subst hi
            rw [if_pos ⟨hp, rfl⟩]
            exact lookup_set_name_same w1 ⟨d.deviceid, hid⟩ _
          · rw [if_neg (fun hc => hi hc.2),
              lookup_set_name_ne w1 ⟨d.deviceid, hid⟩ _ (fun e => hi e.symm), hlook id]
      · rw [process_device_fault w1 d hp hid] at hd
        cases hd

theorem startup_name_of_mem {devices : List XIDeviceInfo} {d : XIDeviceInfo}
    (hnodup : (devices.map XIDeviceInfo.deviceid).Nodup) (hd : d ∈ devices)
    (hp : present_at_startup d = true) : startup_name devices d.deviceid = some d.name := by
  unfold startup_name
  cases hf : devices.find? (fun x => present_at_startup x && decide (x.deviceid = d.deviceid)) with
  | none =>
    rw [List.find?_eq_none] at hf
    exact absurd (by simp [hp]) (hf d hd)
  | some x =>
    have hx := List.find?_some hf
    simp only [Bool.and_eq_true, decide_eq_true_eq] at hx
    have : x = d := List.inj_on_of_nodup_map hnodup (List.mem_of_find?_eq_some hf) hd hx.2
    rw [this]
    rfl

theorem startup_name_some {devices : List XIDeviceInfo} {id : Nat} {name : String}
    (h : startup_name devices id = some name) :
    ∃ d ∈ devices, present_at_startup d = true ∧ d.deviceid = id ∧ d.name = name := by
  unfold startup_name at h
  cases hf : devices.find? (fun x => present_at_startup x && decide (x.deviceid = id)) with
  | none => rw [hf] at h; cases h
  | some x =>
    rw [hf] at h
    have hx := List.find?_some hf
    simp only [Bool.and_eq_true, decide_eq_true_eq] at hx
    exact ⟨x, List.mem_of_find?_eq_some hf, hx.1, hx.2, by simpa using h⟩

theorem count_present_of {devices : List XIDeviceInfo} {d : XIDeviceInfo}
    (hnodup : (devices.map XIDeviceInfo.deviceid).Nodup) (hd : d ∈ devices) :
    (((devices.filter present_at_startup).map present_of).reverse).count (present_of d) =
      if present_at_startup d = true then 1 else 0 := by
  rw [List.count_reverse, List.count_eq_countP, List.countP_map]
  have hcongr : ∀ x ∈ devices.filter present_at_startup,
      ((fun n => n == present_of d) ∘ present_of) x = true ↔ (fun y => y == d) x = true := by
    intro x hx
    have hxm : x ∈ devices := (List.mem_filter.1 hx).1
    simp only [Function.comp, beq_iff_eq]
    constructor
    · intro e
      have : x.deviceid = d.deviceid := congrArg Notification.id e
      exact List.inj_on_of_nodup_map hnodup hxm hd this
    · intro e
      rw [e]
  rw [List.countP_congr hcongr, ← List.count_eq_countP]
  by_cases hp : present_at_startup d = true
  · rw [if_pos hp, List.count_filter hp]
    exact List.count_eq_one_of_mem (List.Nodup.of_map _ hnodup) hd
  · rw [if_neg hp, List.count_eq_zero]
    intro hmem
    exact hp (List.mem_filter.1 hmem).2

/-! ## Master devices -/

theorem reports_of_master {r : XIHierarchyInfo} (h : is_master r.use) : reports r = false := by
  simp [reports, h]

theorem not_master_of_reports {r : XIHierarchyInfo} (h : reports r = true) :
    ¬ is_master r.use := by
  simp only [reports, decide_eq_true_eq] at h
  exact h.2

theorem present_of_master {d : XIDeviceInfo} (h : is_master d.use) :
    present_at_startup d = false := by
  simp [present_at_startup, h]

theorem not_master_of_present {d : XIDeviceInfo} (h : present_at_startup d = true) :
    ¬ is_master d.use := by
  simp only [present_at_startup, decide_eq_true_eq] at h
  exact h.1

/-- The notifications and names of a completed `xi_handle_event` come from
reported records. -/
theorem xi_handle_event_origin {w w2 : World} {event : XIHierarchyEvent}
    (h : xi_handle_event w event = .ok w2) :
    ∃ out, w2.spawned = w.spawned ++ out ∧
      (∀ n ∈ out, ∃ r ∈ event.info, reports r = true ∧ n.id = r.deviceid) ∧
      ∀ id name, w2.lookup id = some name →
        w.lookup id = some name ∨ ∃ r ∈ event.info, reports r = true ∧ r.deviceid = id := by
  by_cases hf : event.flags &&& (XIDeviceEnabled ||| XIDeviceDisabled) = 0
  · simp only [xi_handle_event, hf, if_true] at h
    cases h
    exact ⟨[], by simp, by simp, fun id name hn => Or.inl hn⟩
  · rw [xi_handle_event_of_flags w event hf] at h
    obtain ⟨out, hsp, hk⟩ := for_each_handle_info_spawned h
    refine ⟨out, hsp, ?_, fun id name hn => for_each_handle_info_name_origin h hn⟩
    intro n hn
    have hmem : n.key ∈ out.map Notification.key := List.mem_map_of_mem _ hn
    rw [hk] at hmem
    obtain ⟨r, hr, hrk⟩ := List.mem_map.1 hmem
    obtain ⟨hrm, hrr⟩ := List.mem_filter.1 hr
    exact ⟨r, hrm, hrr, (congrArg Prod.snd hrk).symm⟩

/-! ## The event loop -/

theorem signal_free_prefix (pre rest : List Wakeup) (h : ∀ x ∈ pre, x.revents = 0) :
    signal_free (pre ++ rest) pre.length = true := by
  unfold signal_free
  rw [List.take_left, List.all_eq_true]
  intro x hx
  simp [h x hx]

theorem wakeup_drained_next (pre xs : List Wakeup) (x : Wakeup)
    (h : ∀ y ∈ pre, y.revents = 0) :
    wakeup_drained (pre ++ x :: xs) (pre.length + 1) =
      decide (x.revents = 0 ∧ pre.length ≤ 5) := by
  have ht : List.take (pre.length + 1) (pre ++ x :: xs) = pre ++ [x] := by
    have : pre ++ x :: xs = (pre ++ [x]) ++ xs := by simp
    rw [this]
    exact List.take_left' (by simp)
  have hall : pre.all (fun wk => wk.revents == 0) = true := by
    rw [List.all_eq_true]
    intro y hy
    simp [h y hy]
  unfold wakeup_drained signal_free
  rw [ht, List.all_append, hall]
  by_cases hx : x.revents = 0 <;> by_cases hl : pre.length ≤ 5 <;> simp [hx, hl]

theorem wakeup_drained_later (pre xs : List Wakeup) (x : Wakeup) (k : Nat)
    (hk : pre.length + 2 ≤ k) (h : ¬ (x.revents = 0 ∧ pre.length ≤ 5)) :
    wakeup_drained (pre ++ x :: xs) k = false := by
  unfold wakeup_drained
  by_cases hl : pre.length ≤ 5
  · have hx : ¬ x.revents = 0 := fun hx => h ⟨hx, hl⟩
    have hsf : signal_free (pre ++ x :: xs) k = false := by
      unfold signal_free
      rw [List.take_append_eq_append_take]
      obtain ⟨j, hj⟩ : ∃ j, k - pre.length = j + 1 := ⟨k - pre.length - 1, by omega⟩
      rw [hj, List.take_succ_cons, List.all_append, List.all_cons]
      simp [hx]
    rw [hsf]
    rfl
  · have : decide (k ≤ 6) = false := by
      rw [decide_eq_false_iff_not]
      omega
    rw [this, Bool.and_false]

theorem loop_from_drained (pre rest : List Wakeup) (w : LoopState)
    (hpre : ∀ x ∈ pre, x.revents = 0) :
    loop_from pre.length w rest =
      drain w ((((rest.enumFrom (pre.length + 1)).filter
        (fun p => wakeup_drained (pre ++ rest) p.1)).map (fun p => p.2.pending)).flatten) := by
  induction rest generalizing pre w with
  | nil => rfl
  | cons x xs ih =>
    rw [List.enumFrom_cons]
    by_cases hx : x.revents = 0 ∧ pre.length ≤ 5
    · have hkeep : wakeup_drained (pre ++ x :: xs) (pre.length + 1) = true := by
        rw [wakeup_drained_next pre xs x hpre]
        exact decide_eq_true hx
      have hpre' : ∀ y ∈ pre ++ [x], y.revents = 0 := by
        intro y hy
        rcases List.mem_append.1 hy with hy | hy
        · exact hpre y hy
        · rw [List.mem_singleton.1 hy]; exact hx.1
      have ih' := fun w1 => ih (pre ++ [x]) w1 hpre'
      simp only [List.length_append, List.length_singleton, List.append_assoc,
        List.singleton_append] at ih'
      simp only [List.filter_cons, hkeep, if_true, List.map_cons, List.flatten_cons]
      unfold drain
      rw [for_each_append]
      have hfoo : ¬ pre.length > 5 := by omega
      simp only [loop_from, hx.1, ne_eq, not_true_eq_false, if_false, hfoo]
      unfold drain
      cases for_each handle_xevent w x.pending with
      | error e => rfl
      | ok w1 =>
        simp only []
        exact ih' w1
    · have hdrop : wakeup_drained (pre ++ x :: xs) (pre.length + 1) = false := by
        rw [wakeup_drained_next pre xs x hpre]
        exact decide_eq_false hx
      have hrest : (xs.enumFrom (pre.length + 1 + 1)).filter
          (fun p => wakeup_drained (pre ++ x :: xs) p.1) = [] := by
        rw [List.filter_eq_nil_iff]
        intro p hp
        have hle := List.le_fst_of_mem_enumFrom hp
        rw [wakeup_drained_later pre xs x p.1 (by omega) hx]
        simp
      simp only [List.filter_cons, hdrop, hrest, Bool.false_eq_true, if_false, List.map_nil,
        List.flatten_nil]
      by_cases hr : x.revents = 0
      · have hfoo : pre.length > 5 := by
          by_contra hc
          exact hx ⟨hr, by omega⟩
        simp [loop_from, hr, hfoo, drain, for_each]
      · simp [loop_from, hr, drain, for_each]

theorem wakeup_drained_iff (wakeups : List Wakeup) (k : Nat) :
    wakeup_drained wakeups k = true ↔
      k ≤ 6 ∧ ∀ j, j < k → ∀ wk, wakeups[j]? = some wk → wk.revents = 0 := by
  unfold wakeup_drained signal_free
  rw [Bool.and_eq_true, List.all_eq_true, decide_eq_true_eq]
  constructor
  · rintro ⟨hall, hk⟩
    refine ⟨hk, fun j hj wk hwk => ?_⟩
    have hmem : wk ∈ wakeups.take k :=
      List.mem_iff_getElem?.2 ⟨j, by rw [List.getElem?_take_of_lt hj]; exact hwk⟩
    simpa using hall wk hmem
  · rintro ⟨hk, h⟩
    refine ⟨fun x hx => ?_, hk⟩
    obtain ⟨n, hn⟩ := List.mem_iff_getElem?.1 hx
    rw [List.getElem?_take] at hn
    by_cases hlt : n < k
    · rw [if_pos hlt] at hn
      simpa using h n hlt x hn
    · rw [if_neg hlt] at hn
      cases hn

theorem xi_handle_event_dpy {w w2 : World} {event : XIHierarchyEvent}
    (h : xi_handle_event w event = .ok w2) : w2.ctx.dpy = w.ctx.dpy := by
  by_cases hf : event.flags &&& (XIDeviceEnabled ||| XIDeviceDisabled) = 0
  · simp only [xi_handle_event, hf, if_true] at h
    cases h
    rfl
  · rw [xi_handle_event_of_flags w event hf] at h
    exact for_each_handle_info_dpy h

theorem xi_handle_event_total (w : World) (event : XIHierarchyEvent)
    (h : event_in_range w.ctx.dpy event.info) : ∃ w2, xi_handle_event w event = .ok w2 := by
  by_cases hf : event.flags &&& (XIDeviceEnabled ||| XIDeviceDisabled) = 0
  · exact ⟨w, by simp [xi_handle_event, hf]⟩
  · rw [xi_handle_event_of_flags w event hf]
    exact for_each_handle_info_total w event.info h

/-- A completed body of the inner loop: the event is fetched; it is routed
exactly when `hierarchy_of` yields its data, and then the world is the one
`xi_handle_event` returns for it, otherwise the world is unchanged. -/
theorem handle_xevent_ok {s s2 : LoopState} {ev : XEvent}
    (h : handle_xevent s ev = .ok s2) :
    s2.fetched = s.fetched ++ [ev] ∧
    s2.routed = s.routed ++ (hierarchy_of s.world.ctx.dpy.xi_opcode ev).toList ∧
    for_each xi_handle_event s.world (hierarchy_of s.world.ctx.dpy.xi_opcode ev).toList
      = .ok s2.world ∧
    s2.world.ctx.dpy = s.world.ctx.dpy := by
  unfold handle_xevent at h
  by_cases hg : ev.type ≠ GenericEvent ∨ ev.extension ≠ s.world.ctx.dpy.xi_opcode
  · rw [if_pos hg] at h
    cases h
    have hn : hierarchy_of s.world.ctx.dpy.xi_opcode ev = none := by
      unfold hierarchy_of
      rw [if_neg]
      rintro ⟨h1, h2, _⟩
      rcases hg with hg | hg
      · exact hg h1
      · exact hg h2
    rw [hn]
    exact ⟨rfl, by simp, rfl, rfl⟩
  · rw [if_neg hg] at h
    have hg' : ev.type = GenericEvent ∧ ev.extension = s.world.ctx.dpy.xi_opcode := by
      constructor
      · by_contra hc; exact hg (Or.inl hc)
      · by_contra hc; exact hg (Or.inr hc)
    cases hd : ev.data with
    | none =>
      rw [hd] at h
      cases h
      have hn : hierarchy_of s.world.ctx.dpy.xi_opcode ev = none := by
        unfold hierarchy_of
        by_cases hc : ev.type = GenericEvent ∧ ev.extension = s.world.ctx.dpy.xi_opcode ∧
            ev.evtype = XI_HierarchyChanged
        · rw [if_pos hc, hd]
        · rw [if_neg hc]
      rw [hn]
      exact ⟨rfl, by simp, rfl, rfl⟩
    | some data =>
      rw [hd] at h
      by_cases ht : ev.evtype = XI_HierarchyChanged
      · simp only [ht, if_true] at h
        have hn : hierarchy_of s.world.ctx.dpy.xi_opcode ev = some data := by
          unfold hierarchy_of
          rw [if_pos ⟨hg'.1, hg'.2, ht⟩, hd]
        rw [hn]
        cases hx : xi_handle_event s.world data with
        | error e => rw [hx] at h; cases h
        | ok w1 =>
          rw [hx] at h
          cases h
          refine ⟨rfl, rfl, ?_, xi_handle_event_dpy hx⟩
          simp only [Option.toList, for_each, hx]
      · simp only [ht, if_false] at h
        cases h
        have hn : hierarchy_of s.world.ctx.dpy.xi_opcode ev = none := by
          unfold hierarchy_of
          rw [if_neg]
          rintro ⟨_, _, h3⟩
          exact ht h3
        rw [hn]
        exact ⟨rfl, by simp, rfl, rfl⟩

theorem filterMap_cons_toList {α β : Type} (f : α → Option β) (x : α) (xs : List α) :
    (x :: xs).filterMap f = (f x).toList ++ xs.filterMap f := by
  cases h : f x <;> simp [List.filterMap_cons, h]

/-- A completed inner loop: every pending event is fetched, those with
hierarchy data are routed, in order, and the world is the one that
`xi_handle_event` yields over the routed events. -/
theorem drain_ok {s s2 : LoopState} {evs : List XEvent}
    (h : for_each handle_xevent s evs = .ok s2) :
    s2.fetched = s.fetched ++ evs ∧
    s2.routed = s.routed ++ evs.filterMap (hierarchy_of s.world.ctx.dpy.xi_opcode) ∧
    for_each xi_handle_event s.world (evs.filterMap (hierarchy_of s.world.ctx.dpy.xi_opcode))
      = .ok s2.world ∧
    s2.world.ctx.dpy = s.world.ctx.dpy := by
  induction evs generalizing s with
  | nil =>
    cases h
    exact ⟨by simp, by simp, rfl, rfl⟩
  | cons ev evs ih =>
    obtain ⟨s1, h1, h2⟩ := for_each_cons_ok h
    obtain ⟨hf1, hr1, hw1, hd1⟩ := handle_xevent_ok h1
    obtain ⟨hf2, hr2, hw2, hd2⟩ := ih h2
    rw [hd1] at hr2 hw2
    refine ⟨?_, ?_, ?_, by rw [hd2, hd1]⟩
    · rw [hf2, hf1, List.append_assoc, List.singleton_append]
    · rw [hr2, hr1, List.append_assoc, filterMap_cons_toList]
    · rw [filterMap_cons_toList, for_each_append, hw1]
      exact hw2

theorem handle_xevent_total (s : LoopState) (ev : XEvent)
    (h : ∀ data, ev.data = some data → event_in_range s.world.ctx.dpy data.info) :
    ∃ s2, handle_xevent s ev = .ok s2 := by
  unfold handle_xevent
  by_cases hg : ev.type ≠ GenericEvent ∨ ev.extension ≠ s.world.ctx.dpy.xi_opcode
  · rw [if_pos hg]
    exact ⟨_, rfl⟩
  · rw [if_neg hg]
    cases hd : ev.data with
    | none => exact ⟨_, rfl⟩
    | some data =>
      by_cases ht : ev.evtype = XI_HierarchyChanged
      · obtain ⟨w1, hw1⟩ := xi_handle_event_total s.world data (h data hd)
        simp only [ht, if_true, hw1]
        exact ⟨_, rfl⟩
      · simp only [ht, if_false]
        exact ⟨_, rfl⟩

theorem drain_total (s : LoopState) (evs : List XEvent)
    (h : ∀ ev ∈ evs, ∀ data, ev.data = some data →
      event_in_range s.world.ctx.dpy data.info) :
    ∃ s2, drain s evs = .ok s2 := by
  unfold drain
  induction evs generalizing s with
  | nil => exact ⟨s, rfl⟩
  | cons ev evs ih =>
    obtain ⟨s1, h1⟩ := handle_xevent_total s ev (h ev (List.mem_cons_self ev evs))
    have hd : s1.world.ctx.dpy = s.world.ctx.dpy := (handle_xevent_ok h1).2.2.2
    obtain ⟨s2, h2⟩ := ih s1 (by
      rw [hd]
      exact fun x hx => h x (List.mem_cons_of_mem _ hx))
    exact ⟨s2, by simp only [for_each, h1, h2]⟩

theorem mem_drained_events {wakeups : List Wakeup} {ev : XEvent}
    (h : ev ∈ drained_events wakeups) : ∃ wk ∈ wakeups, ev ∈ wk.pending := by
  unfold drained_events at h
  obtain ⟨l, hl, hev⟩ := List.mem_flatten.1 h
  obtain ⟨p, hp, rfl⟩ := List.mem_map.1 hl
  have hmem := (List.mem_filter.1 hp).1
  exact ⟨p.2, List.snd_mem_of_mem_enumFrom hmem, hev⟩

theorem loop_eq_drain (w : World) (wakeups : List Wakeup) :
    loop w wakeups =
      drain { world := w, fetched := [], routed := [] } (drained_events wakeups) :=
  loop_from_drained [] wakeups _ (by intro x hx; cases hx)

/-- C1: from a world whose slot for `id` is empty, on a server that names the
device `name`, an enable event for the physical device `id` sends exactly
`Added(name, id)`, a following disable event sends exactly
`Removed(name, id)`, and the table still holds `name` for `id` afterwards. -/
theorem enable_then_disable_keeps_name (w : World) (id : Nat) (name : String)
    (d : XIDeviceInfo) (e1 e2 : XIHierarchyEvent)
    (hid : id < MAX_DEVICES) (hslot : w.lookup id = none)
    (hq : w.ctx.dpy.device_info id = some d) (hname : d.name = name)
    (h1 : enables e1 id) (h2 : disables e2 id) :
    ∃ w1 w2, xi_handle_event w e1 = .ok w1 ∧
      w1.spawned = w.spawned ++ [⟨notification_type.ADDED, some name, id⟩] ∧
      xi_handle_event w1 e2 = .ok w2 ∧
      w2.spawned = w1.spawned ++ [⟨notification_type.REMOVED, some name, id⟩] ∧
      w2.lookup id = some name := by
  subst hname
  rw [lookup_of_lt w hid] at hslot
  have hs1 : (run_for_device
      (World.set_name { w with queried := w.queried ++ [id] } ⟨id, hid⟩ (some d.name))
      notification_type.ADDED (some d.name) id).ctx.device_names ⟨id, hid⟩ = some d.name := by
    simp [run_for_device, World.set_name]
  refine ⟨_, _, xi_handle_event_enables_fresh w e1 id d hid hslot hq h1, ?_,
    xi_handle_event_disables_cached _ e2 id d.name hid hs1 h2, ?_, ?_⟩
  · simp [run_for_device, World.set_name]
  · simp [run_for_device]
  · simp [run_for_device, World.set_name, World.lookup, hid]

/-- Witness of C1: the spec's instance, id 5 and name "Mouse", from the
initial state. -/
theorem enable_then_disable_keeps_name_witness :
    ∃ w1 w2, xi_handle_event demo_start (enable_event 5) = .ok w1 ∧
      w1.spawned = demo_start.spawned ++ [⟨notification_type.ADDED, some "Mouse", 5⟩] ∧
      xi_handle_event w1 (disable_event 5) = .ok w2 ∧
      w2.spawned = w1.spawned ++ [⟨notification_type.REMOVED, some "Mouse", 5⟩] ∧
      w2.lookup 5 = some "Mouse" :=
  enable_then_disable_keeps_name demo_start 5 "Mouse" mouse (enable_event 5) (disable_event 5)
    (by decide) (by rfl) (by rfl) (by rfl) (enables_enable_event 5) (disables_disable_event 5)

/-- C3: for an enumeration whose device ids are pairwise distinct and below
the capacity, `xi_process_current_devices` completes; the notifications it
sends are the Present notifications of the entries that are enabled and not a
master device (last entry first), so each such entry gets exactly one and any
other entry none; and afterwards the slot of each such device holds its name. -/
theorem startup_enumeration_present_once (w : World)
    (hnodup : (w.ctx.dpy.devices.map XIDeviceInfo.deviceid).Nodup)
    (hrange : ∀ d ∈ w.ctx.dpy.devices, d.deviceid < MAX_DEVICES) :
    ∃ w' out, xi_process_current_devices w = .ok w' ∧ w'.spawned = w.spawned ++ out ∧
      out = ((w.ctx.dpy.devices.filter present_at_startup).map present_of).reverse ∧
      (∀ d ∈ w.ctx.dpy.devices,
        out.count (present_of d) = if present_at_startup d = true then 1 else 0) ∧
      (∀ d ∈ w.ctx.dpy.devices, present_at_startup d = true →
        w'.lookup d.deviceid = some d.name) := by
  obtain ⟨w', hw'⟩ := for_each_process_device_total w w.ctx.dpy.devices.reverse
    (fun d hd _ => hrange d (List.mem_reverse.1 hd))
  obtain ⟨hsp, _, _, _, hlook⟩ := for_each_process_device_ok hw'
  refine ⟨w', _, hw', hsp, rfl, fun d hd => count_present_of hnodup hd, ?_⟩
  intro d hd hp
  rw [hlook d.deviceid, startup_name_of_mem hnodup hd hp]

/-- Witness of C3: the enumeration of `demo_display` from the initial state. -/
theorem startup_enumeration_present_once_witness :
    ∃ w' out, xi_process_current_devices demo_start = .ok w' ∧
      w'.spawned = demo_start.spawned ++ out ∧
      out = [⟨notification_type.PRESENT, some "Tablet", 7⟩,
        ⟨notification_type.PRESENT, some "Mouse", 5⟩] ∧
      (∀ d ∈ demo_display.devices,
        out.count (present_of d) = if present_at_startup d = true then 1 else 0) ∧
      (∀ d ∈ demo_display.devices, present_at_startup d = true →
        w'.lookup d.deviceid = some d.name) :=
  startup_enumeration_present_once demo_start (by decide) (by decide)

/-- C4: a master pointer or master keyboard is never reported and never
named.  In every state, the loop body of the enumeration leaves the world as
it is for a master entry whatever its enabled state, and the loop body of
`xi_handle_event` for a master record, whatever its flags, sends nothing, asks
the server nothing and stores no name.  For the whole functions: every
notification sent by a completed `xi_process_current_devices` or
`xi_handle_event` is that of an entry or record that is not a master device,
so none carries the id of a master entry or record (an id having one role
within one enumeration or event), and every name in the table afterwards was
there before or belongs to the id of such an entry or record. -/
theorem master_devices_never_reported (w : World) :
    (∀ d, is_master d.use → process_device w d = .ok w) ∧
    (∀ r w1, is_master r.use → handle_info w r = .ok w1 →
      w1.spawned = w.spawned ∧ w1.queried = w.queried ∧
      ∀ id name, w1.lookup id = some name → w.lookup id = some name) ∧
    (∀ w', xi_process_current_devices w = .ok w' →
      ∃ out, w'.spawned = w.spawned ++ out ∧
        (∀ n ∈ out, ∃ d ∈ w.ctx.dpy.devices, ¬ is_master d.use ∧ n = present_of d) ∧
        (∀ m ∈ w.ctx.dpy.devices, is_master m.use →
          (∀ d ∈ w.ctx.dpy.devices, d.deviceid = m.deviceid → is_master d.use) →
          ∀ n ∈ out, n.id ≠ m.deviceid) ∧
        (∀ id name, w'.lookup id = some name →
          w.lookup id = some name ∨
          ∃ d ∈ w.ctx.dpy.devices, ¬ is_master d.use ∧ d.deviceid = id ∧ d.name = name)) ∧
    (∀ event w', xi_handle_event w event = .ok w' →
      ∃ out, w'.spawned = w.spawned ++ out ∧
        (∀ n ∈ out, ∃ r ∈ event.info, ¬ is_master r.use ∧ n.id = r.deviceid) ∧
        (∀ m ∈ event.info, is_master m.use →
          (∀ r ∈ event.info, r.deviceid = m.deviceid → is_master r.use) →
          ∀ n ∈ out, n.id ≠ m.deviceid) ∧
        (∀ id name, w'.lookup id = some name →
          w.lookup id = some name ∨
          ∃ r ∈ event.info, ¬ is_master r.use ∧ r.deviceid = id)) := by
  refine ⟨?_, ?_, ?_, ?_⟩
  · intro d hd
    exact process_device_skip w d (present_of_master hd)
  · intro r w1 hr h
    obtain ⟨hsp, hqu, _, hnames⟩ := handle_info_not_reports_frame (reports_of_master hr) h
    refine ⟨hsp, hqu, ?_⟩
    intro id name hn
    rcases lookup_frame hnames id with e | e
    · rw [← e]; exact hn
    · rw [e] at hn; cases hn
  · intro w' h
    obtain ⟨hsp, _, _, _, hlook⟩ := for_each_process_device_ok h
    have hout : ∀ n ∈ ((w.ctx.dpy.devices.filter present_at_startup).map present_of).reverse,
        ∃ d ∈ w.ctx.dpy.devices, ¬ is_master d.use ∧ n = present_of d := by
      intro n hn
      obtain ⟨d, hd, rfl⟩ := List.mem_map.1 (List.mem_reverse.1 hn)
      obtain ⟨hdm, hdp⟩ := List.mem_filter.1 hd
      exact ⟨d, hdm, not_master_of_present hdp, rfl⟩
    refine ⟨_, hsp, hout, ?_, ?_⟩
    · intro m _ _ hall n hn e
      obtain ⟨d, hd, hnm, rfl⟩ := hout n hn
      exact hnm (hall d hd e)
    · intro id name hn
      rw [hlook id] at hn
      cases hs : startup_name w.ctx.dpy.devices id with
      | none =>
        rw [hs] at hn
        exact Or.inl hn
      | some nm =>
        rw [hs] at hn
        cases hn
        obtain ⟨d, hd, hp, hi, hname⟩ := startup_name_some hs
        exact Or.inr ⟨d, hd, not_master_of_present hp, hi, hname⟩
  · intro event w' h
    obtain ⟨out, hsp, hout, hnames⟩ := xi_handle_event_origin h
    have hout' : ∀ n ∈ out, ∃ r ∈ event.info, ¬ is_master r.use ∧ n.id = r.deviceid := by
      intro n hn
      obtain ⟨r, hr, hrr, hri⟩ := hout n hn
      exact ⟨r, hr, not_master_of_reports hrr, hri⟩
    refine ⟨out, hsp, hout', ?_, ?_⟩
    · intro m _ _ hall n hn e
      obtain ⟨r, hr, hnm, hri⟩ := hout' n hn
      exact hnm (hall r hr (hri.symm.trans e))
    · intro id name hn
      rcases hnames id name hn with e | ⟨r, hr, hrr, hri⟩
      · exact Or.inl e
      · exact Or.inr ⟨r, hr, not_master_of_reports hrr, hri⟩

/-- Witness of C4: on `demo_display`, whose master pointer has id 2, the
enumeration and an event that enables the master pointer and the mouse send no
notification with id 2, and slot 2 stays empty. -/
theorem master_devices_never_reported_witness :
    process_device demo_start core_pointer = .ok demo_start ∧
    (∃ w' out, xi_process_current_devices demo_start = .ok w' ∧
      w'.spawned = demo_start.spawned ++ out ∧ (∀ n ∈ out, n.id ≠ 2) ∧ w'.lookup 2 = none) ∧
    (∃ w' out, xi_handle_event demo_start
        ⟨XIDeviceEnabled,
          [⟨2, XIMasterPointer, XIDeviceEnabled⟩, ⟨5, XISlavePointer, XIDeviceEnabled⟩]⟩
        = .ok w' ∧
      w'.spawned = demo_start.spawned ++ out ∧ (∀ n ∈ out, n.id ≠ 2) ∧ w'.lookup 2 = none) := by
  have h := master_devices_never_reported demo_start
  refine ⟨h.1 core_pointer (by decide), ?_, ?_⟩
  · obtain ⟨out, hsp, _, hlit, _⟩ := h.2.2.1 _ rfl
    exact ⟨_, out, rfl, hsp, hlit core_pointer (by decide) (by decide) (by decide), rfl⟩
  · obtain ⟨out, hsp, _, hlit, _⟩ := h.2.2.2
      ⟨XIDeviceEnabled,
        [⟨2, XIMasterPointer, XIDeviceEnabled⟩, ⟨5, XISlavePointer, XIDeviceEnabled⟩]⟩ _ rfl
    exact ⟨_, out, rfl, hsp,
      hlit ⟨2, XIMasterPointer, XIDeviceEnabled⟩ (by decide) (by decide) (by decide), rfl⟩

/-- C5: the code at the failing input.  Device 9 is not known to the server
`demo_display` and its slot is empty in the initial state; the disable event
for it ends in the NULL dereference of `xi_get_device_name`, so the handler
does not return and no Removed notification is sent. -/
theorem disable_of_unknown_device_faults :
    demo_start.lookup 9 = none ∧ demo_display.device_info 9 = none ∧
    disables (disable_event 9) 9 ∧
    xi_handle_event demo_start (disable_event 9) = .error Fault.null_deref := by
  refine ⟨by rfl, by rfl, disables_disable_event 9, ?_⟩
  rfl

/-- C6, the claim as stated fails: the enumeration does not reset the table.
From the initial state it leaves slot 9 empty, from a state in which slot 9
holds a name it leaves that name there, although the same server has no device
with id 9: the table after the run depends on the table before it and can hold
a name of no enumerated device. -/
theorem startup_enumeration_keeps_stale_name :
    (∀ d ∈ demo_display.devices, d.deviceid ≠ 9) ∧
    ∃ wa wb, xi_process_current_devices demo_start = .ok wa ∧
      xi_process_current_devices (demo_start.set_name ⟨9, by decide⟩ (some "Ghost")) = .ok wb ∧
      wa.spawned = wb.spawned ∧ wa.lookup 9 = none ∧ wb.lookup 9 = some "Ghost" :=
  ⟨by decide, _, _, rfl, rfl, rfl, rfl, rfl⟩

/-- C6, amended: for two prior states on the same server whose reported
entries have ids below the capacity, `xi_process_current_devices` completes
from both and sends the same notifications, one Present per enabled physical
entry; afterwards a slot whose id is that of such an entry holds such an
entry's name, the same in both runs, and every other slot holds what it held
before (the table is not reset); and running it a second time sends the same
notifications again and leaves the table as the first run left it. -/
theorem startup_enumeration_prior_state (w1 w2 : World) (hdpy : w2.ctx.dpy = w1.ctx.dpy)
    (hrange : ∀ d ∈ w1.ctx.dpy.devices, present_at_startup d = true →
      d.deviceid < MAX_DEVICES) :
    ∃ w1' w2' w1'' out,
      xi_process_current_devices w1 = .ok w1' ∧ xi_process_current_devices w2 = .ok w2' ∧
      out = ((w1.ctx.dpy.devices.filter present_at_startup).map present_of).reverse ∧
      w1'.spawned = w1.spawned ++ out ∧ w2'.spawned = w2.spawned ++ out ∧
      (∀ id, (∃ d ∈ w1.ctx.dpy.devices, present_at_startup d = true ∧ d.deviceid = id) →
        ∃ d ∈ w1.ctx.dpy.devices, present_at_startup d = true ∧ d.deviceid = id ∧
          w1'.lookup id = some d.name ∧ w2'.lookup id = some d.name) ∧
      (∀ id, (¬ ∃ d ∈ w1.ctx.dpy.devices, present_at_startup d = true ∧ d.deviceid = id) →
        w1'.lookup id = w1.lookup id ∧ w2'.lookup id = w2.lookup id) ∧
      xi_process_current_devices w1' = .ok w1'' ∧ w1''.spawned = w1'.spawned ++ out ∧
      ∀ id, w1''.lookup id = w1'.lookup id := by
  have hr : ∀ d ∈ w1.ctx.dpy.devices.reverse, present_at_startup d = true →
      d.deviceid < MAX_DEVICES := fun d hd hp => hrange d (List.mem_reverse.1 hd) hp
  obtain ⟨w1', h1⟩ := for_each_process_device_total w1 _ hr
  obtain ⟨w2', h2⟩ := for_each_process_device_total w2 _ hr
  obtain ⟨hsp1, _, hd1, _, hl1⟩ := for_each_process_device_ok h1
  obtain ⟨hsp2, _, _, _, hl2⟩ := for_each_process_device_ok h2
  obtain ⟨w1'', h3⟩ := for_each_process_device_total w1' _ hr
  obtain ⟨hsp3, _, _, _, hl3⟩ := for_each_process_device_ok h3
  have hname : ∀ id, startup_name w1.ctx.dpy.devices id = none ↔
      ¬ ∃ d ∈ w1.ctx.dpy.devices, present_at_startup d = true ∧ d.deviceid = id := by
    intro id
    unfold startup_name
    rw [Option.map_eq_none', List.find?_eq_none]
    simp
  refine ⟨w1', w2', w1'', _, h1, ?_, rfl, hsp1, hsp2, ?_, ?_, ?_, hsp3, ?_⟩
  · unfold xi_process_current_devices
    rw [hdpy]
    exact h2
  · intro id hex
    cases hs : startup_name w1.ctx.dpy.devices id with
    | none => exact absurd hex ((hname id).1 hs)
    | some name =>
      obtain ⟨d, hd, hp, hi, hn⟩ := startup_name_some hs
      refine ⟨d, hd, hp, hi, ?_, ?_⟩
      · rw [hl1 id, hs, hn]
      · rw [hl2 id, hs, hn]
  · intro id hno
    have hs := (hname id).2 hno
    exact ⟨by rw [hl1 id, hs], by rw [hl2 id, hs]⟩
  · unfold xi_process_current_devices
    rw [hd1]
    exact h3
  · intro id
    rw [hl3 id]
    cases hs : startup_name w1.ctx.dpy.devices id with
    | none => rfl
    | some name => rw [hl1 id, hs]

/-- Witness of C6 (amended): the initial state and the state with a stale
name in slot 9, on `demo_display`. -/
theorem startup_enumeration_prior_state_witness :
    ∃ w1' w2' w1'' out,
      xi_process_current_devices demo_start = .ok w1' ∧
      xi_process_current_devices (demo_start.set_name ⟨9, by decide⟩ (some "Ghost"))
        = .ok w2' ∧
      out = ((demo_display.devices.filter present_at_startup).map present_of).reverse ∧
      w1'.spawned = demo_start.spawned ++ out ∧
      w2'.spawned = (demo_start.set_name ⟨9, by decide⟩ (some "Ghost")).spawned ++ out ∧
      (∀ id, (∃ d ∈ demo_display.devices, present_at_startup d = true ∧ d.deviceid = id) →
        ∃ d ∈ demo_display.devices, present_at_startup d = true ∧ d.deviceid = id ∧
          w1'.lookup id = some d.name ∧ w2'.lookup id = some d.name) ∧
      (∀ id, (¬ ∃ d ∈ demo_display.devices, present_at_startup d = true ∧ d.deviceid = id) →
        w1'.lookup id = demo_start.lookup id ∧
        w2'.lookup id = (demo_start.set_name ⟨9, by decide⟩ (some "Ghost")).lookup id) ∧
      xi_process_current_devices w1' = .ok w1'' ∧ w1''.spawned = w1'.spawned ++ out ∧
      ∀ id, w1''.lookup id = w1'.lookup id :=
  startup_enumeration_prior_state demo_start
    (demo_start.set_name ⟨9, by decide⟩ (some "Ghost")) rfl (by decide)

/-- C7: an event whose top-level flags contain neither "device enabled" nor
"device disabled" is ignored, whatever its records are: `xi_handle_event`
returns the world it was given, so no notification is sent, the server is not
asked anything and the name table is unchanged. -/
theorem event_without_enable_disable_ignored (w : World) (event : XIHierarchyEvent)
    (he : event.flags &&& XIDeviceEnabled = 0)
    (hd : event.flags &&& XIDeviceDisabled = 0) :
    xi_handle_event w event = .ok w := by
  have h : event.flags &&& (XIDeviceEnabled ||| XIDeviceDisabled) = 0 :=
    (land_lor_eq_zero_iff _ _ _).2 ⟨he, hd⟩
  simp [xi_handle_event, h]

/-- Witness of C7: an event with top-level flags "slave removed" only, whose
record of the mouse carries all three flags, changes nothing. -/
theorem event_without_enable_disable_ignored_witness :
    (XISlaveRemoved &&& XIDeviceEnabled = 0 ∧ XISlaveRemoved &&& XIDeviceDisabled = 0) ∧
    xi_handle_event demo_start
      ⟨XISlaveRemoved, [⟨5, XISlavePointer, XISlaveRemoved ||| XIDeviceEnabled ||| XIDeviceDisabled⟩]⟩
      = .ok demo_start :=
  ⟨by decide, event_without_enable_disable_ignored demo_start _ (by decide) (by decide)⟩

/-- C8, the claim as stated fails: the disable event of device 9 passes the
gate on the top-level flags and has one reported record, but device 9 is not
in the table and not known to the server, so `xi_handle_event` ends in the
NULL dereference of `xi_get_device_name` and sends no notification for the
record. -/
theorem reported_record_of_unknown_device_not_notified :
    (disable_event 9).flags &&& (XIDeviceEnabled ||| XIDeviceDisabled) ≠ 0 ∧
    (disable_event 9).info.filter reports = [⟨9, XISlavePointer, XIDeviceDisabled⟩] ∧
    demo_start.lookup 9 = none ∧ demo_display.device_info 9 = none ∧
    xi_handle_event demo_start (disable_event 9) = .error Fault.null_deref :=
  ⟨by decide, by decide, rfl, rfl, rfl⟩

/-- C8, amended: for an event whose top-level flags contain "device enabled" or
"device disabled", `xi_handle_event` completes when every record's id is in
the table and known to the server, and when it completes: the notifications it
sends are, in record order, one per physical record whose flags contain
"device enabled" or "device disabled", of type Added if the record has "device
enabled" and Removed otherwise, with the record's id; and for each such record
`r`, with `w1` the world after the records before it, the name sent is the one
in the slot of `r` in `w1` if there is one, and then the server is not asked
and the table is unchanged, otherwise the name the server returns, which is
stored in the slot. -/
theorem reported_records_notified_in_order (w : World) (event : XIHierarchyEvent)
    (hflags : event.flags &&& (XIDeviceEnabled ||| XIDeviceDisabled) ≠ 0) :
    (event_in_range w.ctx.dpy event.info → ∃ w', xi_handle_event w event = .ok w') ∧
    ∀ w', xi_handle_event w event = .ok w' →
      (∃ out, w'.spawned = w.spawned ++ out ∧
        out.map Notification.key =
          (event.info.filter reports).map (fun r => (transition_of r, r.deviceid))) ∧
      ∀ pre r post, event.info = pre ++ r :: post → reports r = true →
        ∃ w1 w2 w3, for_each handle_info w pre = .ok w1 ∧ report_info w1 r = .ok w2 ∧
          evict_info w2 r = .ok w3 ∧ for_each handle_info w3 post = .ok w' ∧
          (∀ name, w1.lookup r.deviceid = some name →
            w2.spawned = w1.spawned ++ [⟨transition_of r, some name, r.deviceid⟩] ∧
            w2.queried = w1.queried ∧ w2.ctx = w1.ctx) ∧
          (w1.lookup r.deviceid = none →
            ∃ d, w.ctx.dpy.device_info r.deviceid = some d ∧
              w2.spawned = w1.spawned ++ [⟨transition_of r, some d.name, r.deviceid⟩] ∧
              w2.queried = w1.queried ++ [r.deviceid] ∧
              w2.lookup r.deviceid = some d.name) := by
  rw [xi_handle_event_of_flags w event hflags]
  refine ⟨for_each_handle_info_total w event.info, ?_⟩
  intro w' hrun
  refine ⟨for_each_handle_info_spawned hrun, ?_⟩
  intro pre r post hinfo hrep
  rw [hinfo] at hrun
  obtain ⟨w1, hpre, hrest⟩ := for_each_split hrun
  obtain ⟨wr, hr, hpost⟩ := for_each_cons_ok hrest
  obtain ⟨w2, h2, h3⟩ := handle_info_reports_ok hrep hr
  refine ⟨w1, w2, wr, hpre, h2, h3, hpost, ?_, ?_⟩
  · intro name hname
    obtain ⟨hid, ⟨nm, hs, rfl⟩ | ⟨hs, _⟩⟩ := report_info_ok h2
    · rw [lookup_of_lt w1 hid, hs] at hname
      cases hname
      exact ⟨rfl, rfl, rfl⟩
    · rw [lookup_of_lt w1 hid, hs] at hname
      cases hname
  · intro hnone
    obtain ⟨hid, ⟨nm, hs, _⟩ | ⟨hs, d, hq, rfl⟩⟩ := report_info_ok h2
    · rw [lookup_of_lt w1 hid, hs] at hnone
      cases hnone
    · rw [for_each_handle_info_dpy hpre] at hq
      refine ⟨d, hq, rfl, rfl, ?_⟩
      rw [lookup_run_for_device]
      exact lookup_set_name_same _ ⟨r.deviceid, hid⟩ _

/-- Witness of C8 (amended): from the initial state, an event that enables the mouse
and disables it in two records sends Added and Removed for id 5, in that
order. -/
theorem reported_records_notified_in_order_witness :
    ∃ w', xi_handle_event demo_start
        ⟨XIDeviceEnabled ||| XIDeviceDisabled,
          [⟨5, XISlavePointer, XIDeviceEnabled⟩, ⟨2, XIMasterPointer, XIDeviceEnabled⟩,
            ⟨5, XISlavePointer, XIDeviceDisabled⟩]⟩ = .ok w' ∧
      ∃ out, w'.spawned = demo_start.spawned ++ out ∧
        out.map Notification.key =
          [(notification_type.ADDED, 5), (notification_type.REMOVED, 5)] := by
  have h := reported_records_notified_in_order demo_start
    ⟨XIDeviceEnabled ||| XIDeviceDisabled,
      [⟨5, XISlavePointer, XIDeviceEnabled⟩, ⟨2, XIMasterPointer, XIDeviceEnabled⟩,
        ⟨5, XISlavePointer, XIDeviceDisabled⟩]⟩ (by decide)
  obtain ⟨w', hw'⟩ := h.1 (by
    intro r hr
    simp only [List.mem_cons, List.mem_singleton, List.not_mem_nil, or_false] at hr
    rcases hr with rfl | rfl | rfl <;> exact ⟨by decide, rfl⟩)
  exact ⟨w', hw', (h.2 w' hw').1⟩

/-- C9, the claim as stated fails: after the mouse (id 5) was enabled, an
event whose record of id 5 has the role master pointer and carries "device
disabled" together with "slave removed" leaves the name in slot 5, because the
`continue` for master devices skips the eviction. -/
theorem slave_removed_on_master_record_not_evicted :
    ∃ w1, xi_handle_event demo_start (enable_event 5) = .ok w1 ∧
      (XIDeviceDisabled ||| XISlaveRemoved) &&& (XIDeviceEnabled ||| XIDeviceDisabled) ≠ 0 ∧
      (XIDeviceDisabled ||| XISlaveRemoved) &&& XISlaveRemoved ≠ 0 ∧
      xi_handle_event w1
        ⟨XIDeviceDisabled ||| XISlaveRemoved,
          [⟨5, XIMasterPointer, XIDeviceDisabled ||| XISlaveRemoved⟩]⟩ = .ok w1 ∧
      w1.lookup 5 = some "Mouse" :=
  ⟨_, rfl, by decide, by decide, rfl, rfl⟩

/-- C9, amended: for an event whose top-level flags contain "device enabled"
or "device disabled", `xi_handle_event` completes when every record's id is in
the table and known to the server, and when it completes, every record `r`
with "slave removed" that is not skipped as a master record with an
enable/disable flag has its slot empty afterwards, unless a later record of
the event for the same id is reported (and so stores a name). -/
theorem slave_removed_record_clears_slot (w : World) (event : XIHierarchyEvent)
    (hflags : event.flags &&& (XIDeviceEnabled ||| XIDeviceDisabled) ≠ 0) :
    (event_in_range w.ctx.dpy event.info → ∃ w', xi_handle_event w event = .ok w') ∧
    ∀ w', xi_handle_event w event = .ok w' →
      ∀ pre r post, event.info = pre ++ r :: post →
        r.flags &&& XISlaveRemoved ≠ 0 →
        ¬ (is_master r.use ∧ r.flags &&& (XIDeviceEnabled ||| XIDeviceDisabled) ≠ 0) →
        (∀ x ∈ post, x.deviceid = r.deviceid → reports x = false) →
        r.deviceid < MAX_DEVICES ∧ w'.lookup r.deviceid = none := by
  rw [xi_handle_event_of_flags w event hflags]
  refine ⟨for_each_handle_info_total w event.info, ?_⟩
  intro w' hrun pre r post hinfo hsr hskip hlater
  rw [hinfo] at hrun
  obtain ⟨w1, hpre, hrest⟩ := for_each_split hrun
  obtain ⟨wr, hr, hpost⟩ := for_each_cons_ok hrest
  have hev : ∃ w2, evict_info w2 r = .ok wr := by
    cases hrep : reports r with
    | true =>
      obtain ⟨w2, _, h3⟩ := handle_info_reports_ok hrep hr
      exact ⟨w2, h3⟩
    | false =>
      rw [handle_info_of_not_reports w1 r hrep] at hr
      by_cases hf : r.flags &&& (XIDeviceEnabled ||| XIDeviceDisabled) ≠ 0
      · exfalso
        simp only [reports, decide_eq_false_iff_not, not_and, not_not] at hrep
        exact hskip ⟨hrep hf, hf⟩
      · rw [if_neg hf] at hr
        exact ⟨w1, hr⟩
  obtain ⟨w2, h3⟩ := hev
  rcases evict_info_ok h3 with ⟨h0, _⟩ | ⟨_, hid, rfl⟩
  · exact absurd h0 hsr
  · refine ⟨hid, for_each_handle_info_keeps_empty hpost ?_ hlater⟩
    exact lookup_set_name_same w2 ⟨r.deviceid, hid⟩ none

/-- Witness of C9 (amended): after the mouse was enabled, an event whose
record of the mouse carries "device disabled" and "slave removed" empties
slot 5. -/
theorem slave_removed_record_clears_slot_witness :
    ∃ w1 w', xi_handle_event demo_start (enable_event 5) = .ok w1 ∧
      w1.lookup 5 = some "Mouse" ∧
      xi_handle_event w1
        ⟨XIDeviceDisabled, [⟨5, XISlavePointer, XIDeviceDisabled ||| XISlaveRemoved⟩]⟩
        = .ok w' ∧
      w'.lookup 5 = none :=
  ⟨_, _, rfl, rfl, rfl,
    ((slave_removed_record_clears_slot
      (run_for_device
        (World.set_name { demo_start with queried := demo_start.queried ++ [5] }
          ⟨5, by decide⟩ (some "Mouse"))
        notification_type.ADDED (some "Mouse") 5)
      ⟨XIDeviceDisabled, [⟨5, XISlavePointer, XIDeviceDisabled ||| XISlaveRemoved⟩]⟩
      (by decide)).2 _ rfl [] ⟨5, XISlavePointer, XIDeviceDisabled ||| XISlaveRemoved⟩ [] rfl
      (by decide) (by decide) (by intro x hx; cases hx)).2⟩

/-- C10, the claim as stated fails: in `demo_faulting` the signal descriptor
is ready at neither wake-up and both are among the first six, yet the events
of the second wake-up are not drained, because the handler of the first
wake-up's event ends in a NULL dereference and `loop` with it. -/
theorem loop_fault_ends_draining :
    wakeup_drained demo_faulting 2 = true ∧
    loop demo_start demo_faulting = .error Fault.null_deref :=
  ⟨by decide, rfl⟩

/-- C10, amended: `loop` runs to the end whenever every hierarchy event among
the pending events has its record ids in the table and known to the server;
and whenever it runs to the end, the events it fetched are, in order, exactly
the pending events of the wake-ups `k` (counted from 1) with `k ≤ 6` and the
signal descriptor not ready at any of the wake-ups 1 to `k`; the events it
passed to `xi_handle_event` are exactly the hierarchy events among those; and
the world it leaves is the one `xi_handle_event` yields over these events in
order.  So nothing of the wake-up at which the signal is ready, of a later
one, or of the seventh or a later wake-up is fetched or handled. -/
theorem loop_drains_first_six_before_signal (w : World) (wakeups : List Wakeup) :
    (wakeups_in_range w.ctx.dpy wakeups → ∃ s, loop w wakeups = .ok s) ∧
    (∀ s, loop w wakeups = .ok s →
      s.fetched =
        (((wakeups.enumFrom 1).filter (fun p => wakeup_drained wakeups p.1)).map
          (fun p => p.2.pending)).flatten ∧
      s.routed = s.fetched.filterMap (hierarchy_of w.ctx.dpy.xi_opcode) ∧
      for_each xi_handle_event w s.routed = .ok s.world) ∧
    ∀ k, wakeup_drained wakeups k = true ↔
      k ≤ 6 ∧ ∀ j, j < k → ∀ wk, wakeups[j]? = some wk → wk.revents = 0 := by
  refine ⟨?_, ?_, wakeup_drained_iff wakeups⟩
  · intro hrange
    rw [loop_eq_drain]
    apply drain_total
    intro ev hev data hdata
    obtain ⟨wk, hwk, hmem⟩ := mem_drained_events hev
    exact hrange wk hwk ev hmem data hdata
  · intro s hrun
    rw [loop_eq_drain] at hrun
    obtain ⟨hf, hr, hw, _⟩ := drain_ok hrun
    simp only [List.nil_append] at hf hr
    have hf' : s.fetched = drained_events wakeups := hf
    refine ⟨hf, ?_, ?_⟩
    · rw [hr, hf']
    · rw [hr]
      exact hw

/-- Witness of C10 (amended): of the eight signal-free wake-ups of
`demo_wakeups` the first six are drained, the key press is fetched and not
routed, and the notifications are those of the five routed events; in
`demo_signalled` only the first wake-up is drained. -/
theorem loop_drains_first_six_before_signal_witness :
    (∃ s, loop demo_start demo_wakeups = .ok s ∧
      s.fetched =
        [hierarchy_xevent (enable_event 5), key_press, hierarchy_xevent (disable_event 5),
          hierarchy_xevent (enable_event 7), hierarchy_xevent (disable_event 7),
          hierarchy_xevent (enable_event 5)] ∧
      s.routed =
        [enable_event 5, disable_event 5, enable_event 7, disable_event 7, enable_event 5] ∧
      s.world.spawned =
        [⟨notification_type.ADDED, some "Mouse", 5⟩,
          ⟨notification_type.REMOVED, some "Mouse", 5⟩,
          ⟨notification_type.ADDED, some "Tablet", 7⟩,
          ⟨notification_type.REMOVED, some "Tablet", 7⟩,
          ⟨notification_type.ADDED, some "Mouse", 5⟩]) ∧
    (∃ s, loop demo_start demo_signalled = .ok s ∧
      s.fetched = [hierarchy_xevent (enable_event 5)] ∧
      s.routed = [enable_event 5] ∧
      s.world.spawned = [⟨notification_type.ADDED, some "Mouse", 5⟩]) := by
  have h1 := (loop_drains_first_six_before_signal demo_start demo_wakeups).2.1 _ rfl
  have h2 := (loop_drains_first_six_before_signal demo_start demo_signalled).2.1 _ rfl
  refine ⟨⟨_, rfl, ?_, ?_, rfl⟩, ⟨_, rfl, ?_, ?_, rfl⟩⟩
  · rw [h1.1]; decide
  · rw [h1.2.1, h1.1]; decide
  · rw [h2.1]; decide
  · rw [h2.2.1, h2.1]; decide

end HelloDevice
